import Mathlib

/-!
Verification of the round-robin fixture generator of `briscas.py`
(function `generar_fixture`, the core scheduling algorithm).

The Python core is shallowly embedded below:

* a returned tuple `(ronda, mesa, local, visita, nota)` becomes the
  structure `Fila` (the field `local` is spelled `locl` because `local`
  is a Lean keyword);
* the validation errors raised via `ValueError` become `Except.error`;
* Python lists become Lean lists; the in-place `filas.sort(key=...)`
  (a stable sort over the key `(ronda, mesa)`) becomes
  `List.mergeSort` with the lexicographic comparison `claveLE`;
* the loop `for r in range(1, rondas+1)` with the rotation at the end of
  each iteration becomes the recursion `idaAux`, and the inner
  `for a, b in pares` loop with its `mesa` counter becomes `conMesas`.
-/

def BYE_LABEL : String := "DESCANSA"

/-- One output row: `(ronda, mesa, local, visita, nota)` of `generar_fixture`.
`locl` stands for the Python tuple field `local` (a Lean keyword). -/
structure Fila where
  ronda : Nat
  mesa : Nat
  locl : String
  visita : String
  nota : String
deriving DecidableEq, Repr

/-- The sort key used by `filas.sort(key=lambda x: (x[0], x[1]))`:
lexicographic comparison on `(ronda, mesa)`. -/
def claveLE (x y : Fila) : Bool :=
  Nat.blt x.ronda y.ronda || (x.ronda == y.ronda && Nat.ble x.mesa y.mesa)

/-- `pares = [(work[i], work[-(i + 1)]) for i in range(mitad)]`.
The Python negative index `-(i+1)` on a list of length `len` is
`len - (i + 1)`; indices are always in range in the program, so the
default `""` of `getD` is never produced. -/
def pares (work : List String) (mitad : Nat) : List (String × String) :=
  (List.range mitad).map (fun i => (work.getD i "", work.getD (work.length - (i + 1)) ""))

/-- The body of the inner loop: build the row for the pair `(a, b)` at
round `r`, table `mesa`.  Mirrors the `if a == bye_label or b == bye_label`
/ `balance_home_away and r % 2 == 0` branches of the source. -/
def filaDe (bye_label : String) (balance_home_away : Bool) (r mesa : Nat)
    (ab : String × String) : Fila :=
  if ab.1 = bye_label ∨ ab.2 = bye_label then
    { ronda := r, mesa := mesa,
      locl := if ab.2 = bye_label then ab.1 else ab.2,
      visita := "", nota := "DESCANSA" }
  else if balance_home_away ∧ r % 2 = 0 then
    { ronda := r, mesa := mesa, locl := ab.2, visita := ab.1, nota := "" }
  else
    { ronda := r, mesa := mesa, locl := ab.1, visita := ab.2, nota := "" }

/-- The inner loop `mesa = 1; for a, b in pares: ...; mesa += 1`. -/
def conMesas (bye_label : String) (balance_home_away : Bool) (r : Nat) :
    Nat → List (String × String) → List Fila
  | _, [] => []
  | mesa, ab :: resto =>
      filaDe bye_label balance_home_away r mesa ab ::
        conMesas bye_label balance_home_away r (mesa + 1) resto

/-- All rows generated for one round from the current `work` list. -/
def filasRonda (bye_label : String) (balance_home_away : Bool) (r : Nat)
    (work : List String) (mitad : Nat) : List Fila :=
  conMesas bye_label balance_home_away r 1 (pares work mitad)

/-- The rotation at the end of each round:
`fijo = work[0]; cola = work[1:]; work = [fijo] + [cola[-1]] + cola[:-1]`.
In the program `work` always has even length ≥ 2, so `cola` is nonempty
and the `getLastD` default is never used. -/
def rotar (work : List String) : List String :=
  match work with
  | [] => []
  | fijo :: cola => fijo :: cola.getLastD "" :: cola.dropLast

/-- `rotar` iterated (used to reason about the state of `work` at the
start of each round). -/
def rotarN : Nat → List String → List String
  | 0, w => w
  | k + 1, w => rotarN k (rotar w)

/-- The round loop (`for r in range(1, rondas + 1)`), parameterised by the
current round `r` and the number `k` of rounds still to generate. -/
def idaAux (bye_label : String) (balance_home_away : Bool) (mitad : Nat) :
    Nat → Nat → List String → List Fila
  | _, 0, _ => []
  | r, k + 1, work =>
      filasRonda bye_label balance_home_away r work mitad ++
        idaAux bye_label balance_home_away mitad (r + 1) k (rotar work)

/-- One mirrored row of the return leg (`vuelta`): round shifted by
`rondas`, same table; non-bye rows get home/away swapped, bye rows keep
their shape. -/
def espejo (rondas : Nat) (f : Fila) : Fila :=
  if f.nota = "DESCANSA" then
    { ronda := f.ronda + rondas, mesa := f.mesa, locl := f.locl,
      visita := "", nota := "DESCANSA" }
  else
    { ronda := f.ronda + rondas, mesa := f.mesa, locl := f.visita,
      visita := f.locl, nota := "" }

/-- The `vuelta` list built when `double_round` is set. -/
def vuelta (rondas : Nat) (filas : List Fila) : List Fila :=
  filas.map (espejo rondas)

/-- The synthesized labels `["E1", ..., "En"]` used when no custom names
are supplied. -/
def nombresPorDefecto (n : Nat) : List String :=
  (List.range n).map (fun i => "E" ++ toString (i + 1))

/-- The even participant count after bye padding (`n += 1` when odd). -/
def nPadded (n0 : Nat) : Nat := if n0 % 2 == 1 then n0 + 1 else n0

/-- The core of `generar_fixture` once validation has passed and the
team list `equipos0` (of length `n0`) is fixed: pad with the bye label
when `n0` is odd, generate the first leg, optionally the mirrored second
leg, and sort by `(ronda, mesa)`. -/
def nucleo (equipos0 : List String) (n0 : Nat)
    (double_round balance_home_away : Bool) (bye_label : String) : List Fila :=
  let equipos := if n0 % 2 == 1 then equipos0 ++ [bye_label] else equipos0
  let rondas := nPadded n0 - 1
  let mitad := nPadded n0 / 2
  let filas := idaAux bye_label balance_home_away mitad 1 rondas equipos
  let filas2 := if double_round then filas ++ vuelta rondas filas else filas
  filas2.mergeSort claveLE

/-- Shallow embedding of `generar_fixture`.  `ValueError` becomes
`Except.error` with the source's message.  (The Python guard
`names[:] if names else ...` treats `names = []` like `None`, but a
supplied empty list always fails the length validation first since
`n ≥ 2` there, so matching on the option is faithful.) -/
def generar_fixture (n : Int) (names : Option (List String) := none)
    (double_round : Bool := false) (balance_home_away : Bool := true)
    (bye_label : String := BYE_LABEL) : Except String (List Fila) :=
  if n < 2 then Except.error "Se requieren al menos 2 equipos."
  else
    match names with
    | some l =>
        if (l.length : Int) ≠ n then
          Except.error "Si usas nombres personalizados, deben ser exactamente n."
        else Except.ok (nucleo l n.toNat double_round balance_home_away bye_label)
    | none =>
        Except.ok (nucleo (nombresPorDefecto n.toNat) n.toNat
          double_round balance_home_away bye_label)

/-- The list of real participant labels a call works with. -/
def equiposDe (n : Int) (names : Option (List String)) : List String :=
  match names with
  | some l => l
  | none => nombresPorDefecto n.toNat

/-- Number of rounds of the single round-robin for `n0` teams. -/
def rondasIda (n0 : Nat) : Nat := nPadded n0 - 1

/-- Number of tables per round for `n0` teams. -/
def mitadDe (n0 : Nat) : Nat := nPadded n0 / 2

/-! ### Observables used by the claims -/

/-- Number of rows in which the unordered pair `{p, q}` occupies the
`(local, visita)` columns. -/
def cuentaPar (p q : String) (filas : List Fila) : Nat :=
  filas.countP (fun f => (f.locl == p && f.visita == q) || (f.locl == q && f.visita == p))

/-- Number of rows with `local = p` and `visita = q` (orientation kept). -/
def cuentaDirigida (p q : String) (filas : List Fila) : Nat :=
  filas.countP (fun f => f.locl == p && f.visita == q)

/-- Number of BYE rows in which `p` is the resting participant. -/
def cuentaDescansos (p : String) (filas : List Fila) : Nat :=
  filas.countP (fun f => f.nota == "DESCANSA" && f.locl == p)

/-- Does the label `lbl` occur in the row (as home or away)? -/
def apareceEn (lbl : String) (f : Fila) : Bool :=
  f.locl == lbl || f.visita == lbl

/-- Number of rows of round `r` in which `lbl` occurs. -/
def cuentaEnRonda (r : Nat) (lbl : String) (filas : List Fila) : Nat :=
  filas.countP (fun f => f.ronda == r && apareceEn lbl f)

/-- Number of rows of round `r`. -/
def cuentaRonda (r : Nat) (filas : List Fila) : Nat :=
  filas.countP (fun f => f.ronda == r)

/-- Number of BYE rows of round `r`. -/
def cuentaByeRonda (r : Nat) (filas : List Fila) : Nat :=
  filas.countP (fun f => f.ronda == r && f.nota == "DESCANSA")

/-- Number of rows at round `r`, table `t`. -/
def cuentaMesa (r t : Nat) (filas : List Fila) : Nat :=
  filas.countP (fun f => f.ronda == r && f.mesa == t)

/-- Round number relative to its leg: rounds of the second leg
(`r > rondas`) are counted from the start of that leg. -/
def rondaLocal (rondas r : Nat) : Nat := if r ≤ rondas then r else r - rondas

/-- Swap of home and away used to compare the balanced and unbalanced
runs: a non-bye row whose leg-local round is even is flipped. -/
def flipParidad (rondas : Nat) (f : Fila) : Fila :=
  if rondaLocal rondas f.ronda % 2 = 0 ∧ f.nota = "" then
    { ronda := f.ronda, mesa := f.mesa, locl := f.visita, visita := f.locl, nota := "" }
  else f

/-- Explicit-store model of the two list objects manipulated by
`generar_fixture` before the round loop: the caller's `names` list and
the local `equipos` list.  The source initialises `equipos` as a copy
(`names[:]`), so the later `equipos.append(bye_label)` mutates only the
`equipos` cell. -/
structure EstadoListas where
  names : Option (List String)
  equipos : List String
deriving DecidableEq, Repr

/-- The list-object state after `equipos = names[:] if names else [...]`
and the conditional `equipos.append(bye_label)`. -/
def cuerpoListas (n : Int) (names : Option (List String)) (bye_label : String) :
    EstadoListas :=
  let equipos := match names with
    | some l => l
    | none => nombresPorDefecto n.toNat
  let s : EstadoListas := { names := names, equipos := equipos }
  if n.toNat % 2 == 1 then { s with equipos := s.equipos ++ [bye_label] } else s

/-! ### Basic structure of the generated rows -/

theorem filaDe_ronda (bye : String) (bal : Bool) (r mesa : Nat) (ab : String × String) :
    (filaDe bye bal r mesa ab).ronda = r := by
  unfold filaDe
  split
  · rfl
  · split
    · rfl
    · rfl

theorem filaDe_mesa (bye : String) (bal : Bool) (r mesa : Nat) (ab : String × String) :
    (filaDe bye bal r mesa ab).mesa = mesa := by
  unfold filaDe
  split
  · rfl
  · split
    · rfl
    · rfl

theorem conMesas_eq_enumFrom (bye : String) (bal : Bool) (r mesa : Nat)
    (l : List (String × String)) :
    conMesas bye bal r mesa l =
      (List.enumFrom mesa l).map (fun p => filaDe bye bal r p.1 p.2) := by
  induction l generalizing mesa with
  | nil => rfl
  | cons ab resto ih => simp [conMesas, List.enumFrom, ih]

theorem length_conMesas (bye : String) (bal : Bool) (r mesa : Nat)
    (l : List (String × String)) :
    (conMesas bye bal r mesa l).length = l.length := by
  rw [conMesas_eq_enumFrom]
  simp

theorem length_pares (work : List String) (mitad : Nat) :
    (pares work mitad).length = mitad := by
  simp [pares]

theorem length_filasRonda (bye : String) (bal : Bool) (r : Nat)
    (work : List String) (mitad : Nat) :
    (filasRonda bye bal r work mitad).length = mitad := by
  rw [filasRonda, length_conMesas, length_pares]

theorem length_idaAux (bye : String) (bal : Bool) (mitad r k : Nat) (w : List String) :
    (idaAux bye bal mitad r k w).length = k * mitad := by
  induction k generalizing r w with
  | zero => simp [idaAux]
  | succ k ih =>
      simp only [idaAux, List.length_append, length_filasRonda, ih]
      rw [Nat.succ_mul]
      omega

/-- A count over the rows of one round reduces to a count over the pairs,
whenever the row predicate factors through the pair (independently of the
table number). -/
theorem countP_conMesas (bye : String) (bal : Bool) (r mesa : Nat)
    (l : List (String × String)) (φ : Fila → Bool) (ψ : String × String → Bool)
    (h : ∀ mesa ab, φ (filaDe bye bal r mesa ab) = ψ ab) :
    (conMesas bye bal r mesa l).countP φ = l.countP ψ := by
  rw [conMesas_eq_enumFrom, List.countP_map]
  have h1 : List.countP (fun p => φ (filaDe bye bal r p.1 p.2)) (List.enumFrom mesa l)
      = List.countP (fun p => ψ p.2) (List.enumFrom mesa l) :=
    List.countP_congr (fun p _ => by rw [h])
  have h2 : List.countP (fun p => ψ p.2) (List.enumFrom mesa l) = l.countP ψ := by
    conv_rhs => rw [← List.enumFrom_map_snd mesa l]
    rw [List.countP_map]
    rfl
  calc List.countP (φ ∘ fun p => filaDe bye bal r p.1 p.2) (List.enumFrom mesa l)
      = List.countP (fun p => φ (filaDe bye bal r p.1 p.2)) (List.enumFrom mesa l) := rfl
    _ = l.countP ψ := by rw [h1, h2]

theorem countP_pares (work : List String) (mitad : Nat) (ψ : String × String → Bool) :
    (pares work mitad).countP ψ =
      (List.range mitad).countP
        (fun i => ψ (work.getD i "", work.getD (work.length - (i + 1)) "")) := by
  rw [pares, List.countP_map]
  rfl

theorem countP_idaAux (bye : String) (bal : Bool) (mitad : Nat) (φ : Fila → Bool) :
    ∀ (k r : Nat) (w : List String),
      (idaAux bye bal mitad r k w).countP φ =
        ∑ j ∈ Finset.range k, (filasRonda bye bal (r + j) (rotarN j w) mitad).countP φ := by
  intro k
  induction k with
  | zero => intro r w; simp [idaAux]
  | succ k ih =>
      intro r w
      simp only [idaAux, List.countP_append]
      rw [ih (r + 1) (rotar w), Finset.sum_range_succ']
      have h0 : ∀ j, filasRonda bye bal (r + 1 + j) (rotarN j (rotar w)) mitad
          = filasRonda bye bal (r + (j + 1)) (rotarN (j + 1) w) mitad := by
        intro j
        have : r + 1 + j = r + (j + 1) := by omega
        rw [this]
        rfl
      simp only [h0]
      have h1 : filasRonda bye bal (r + 0) (rotarN 0 w) mitad
          = filasRonda bye bal r w mitad := by rfl
      rw [h1]
      omega

/-! ### The rotation in closed form -/

theorem rotar_cons (x : String) (ys : List String) (h : ys ≠ []) :
    rotar (x :: ys) = x :: ys.rotate (ys.length - 1) := by
  obtain ⟨zs, z, rfl⟩ : ∃ zs z, ys = zs ++ [z] :=
    ⟨ys.dropLast, ys.getLast h, (List.dropLast_append_getLast h).symm⟩
  have hlen : (zs ++ [z]).length - 1 = zs.length := by simp
  rw [rotar, hlen, List.rotate_eq_drop_append_take (by simp : zs.length ≤ (zs ++ [z]).length),
    List.drop_left, List.take_left]
  simp

theorem rotarN_cons (x : String) (j : Nat) :
    ∀ (ys : List String), ys ≠ [] →
      rotarN j (x :: ys) = x :: ys.rotate ((ys.length - 1) * j) := by
  induction j with
  | zero => intro ys _; simp [rotarN]
  | succ j ih =>
      intro ys h
      have h1 : rotarN (j + 1) (x :: ys) = rotarN j (rotar (x :: ys)) := rfl
      have h2 : ys.rotate (ys.length - 1) ≠ [] := by
        intro hc
        apply h
        have := List.length_rotate ys (ys.length - 1)
        rw [hc] at this
        exact List.eq_nil_of_length_eq_zero this.symm
      rw [h1, rotar_cons x ys h, ih (ys.rotate (ys.length - 1)) h2,
        List.length_rotate, List.rotate_rotate]
      congr 2
      generalize ys.length - 1 = a
      rw [Nat.mul_succ]
      exact Nat.add_comm a (a * j)

theorem length_rotarN (x : String) (ys : List String) (h : ys ≠ []) (j : Nat) :
    (rotarN j (x :: ys)).length = ys.length + 1 := by
  rw [rotarN_cons x j ys h]
  simp

theorem nodup_rotarN (x : String) (ys : List String) (h : ys ≠ []) (j : Nat) :
    (rotarN j (x :: ys)).Nodup ↔ (x :: ys).Nodup := by
  rw [rotarN_cons x j ys h]
  simp [List.nodup_cons, List.mem_rotate, List.nodup_rotate]

theorem mem_rotarN (x : String) (ys : List String) (h : ys ≠ []) (j : Nat) (a : String) :
    a ∈ rotarN j (x :: ys) ↔ a ∈ x :: ys := by
  rw [rotarN_cons x j ys h]
  simp [List.mem_rotate]

theorem getD_rotarN_zero (x : String) (ys : List String) (h : ys ≠ []) (j : Nat) :
    (rotarN j (x :: ys)).getD 0 "" = x := by
  rw [rotarN_cons x j ys h]
  rfl

theorem getD_rotarN_pos (x : String) (ys : List String) (h : ys ≠ []) (j c : Nat)
    (hc : c < ys.length) :
    (rotarN j (x :: ys)).getD ((c + j) % ys.length + 1) "" = ys.getD c "" := by
  have hL : 0 < ys.length := lt_of_le_of_lt (Nat.zero_le c) hc
  rw [rotarN_cons x j ys h]
  have hm : (c + j) % ys.length < ys.length := Nat.mod_lt _ hL
  have hstep : ((x :: ys.rotate ((ys.length - 1) * j))).getD ((c + j) % ys.length + 1) ""
      = (ys.rotate ((ys.length - 1) * j)).getD ((c + j) % ys.length) "" := by
    rfl
  rw [hstep, List.getD_eq_getElem _ _ (by rw [List.length_rotate]; exact hm),
    List.getD_eq_getElem _ _ hc, List.getElem_rotate]
  congr 1
  rw [Nat.mod_add_mod]
  have h1 : c + j + (ys.length - 1) * j = c + ys.length * j := by
    have h3 : ys.length - 1 + 1 = ys.length := by omega
    calc c + j + (ys.length - 1) * j
        = c + ((ys.length - 1) * j + j) := by omega
      _ = c + (ys.length - 1 + 1) * j := by rw [Nat.succ_mul]
      _ = c + ys.length * j := by rw [h3]
  rw [h1, Nat.add_mul_mod_self_left]
  exact Nat.mod_eq_of_lt hc

/-! ### Counting solutions of affine congruences -/

theorem countP_range_decide_eq (n a : Nat) :
    (List.range n).countP (fun i => decide (i = a)) = if a < n then 1 else 0 := by
  induction n with
  | zero => simp
  | succ n ih =>
      rw [List.range_succ, List.countP_append, ih]
      simp only [List.countP_cons, List.countP_nil]
      rcases Nat.lt_trichotomy a n with h | h | h
      · have hn : ¬ (n = a) := by omega
        simp [h, Nat.lt_succ_of_lt h, hn]
      · subst h
        simp [Nat.lt_irrefl, Nat.lt_succ_self]
      · have hn : ¬ (n = a) := by omega
        have h1 : ¬ (a < n) := by omega
        have h2 : ¬ (a < n + 1) := by omega
        simp [h1, h2, hn]

theorem card_filter_affine (L k s t : Nat) (hL : 0 < L) (hk : Nat.gcd L k = 1)
    (ht : t < L) :
    ((Finset.range L).filter (fun j => (k * j + s) % L = t)).card = 1 := by
  have hinj : ∀ j₁ j₂, j₁ < L → j₂ < L →
      (k * j₁ + s) % L = (k * j₂ + s) % L → j₁ = j₂ := by
    intro j₁ j₂ h₁ h₂ heq
    have hm : Nat.ModEq L (k * j₁ + s) (k * j₂ + s) := heq
    have hm2 : Nat.ModEq L (k * j₁) (k * j₂) := Nat.ModEq.add_right_cancel' s hm
    have hm3 : Nat.ModEq L j₁ j₂ := Nat.ModEq.cancel_left_of_coprime hk hm2
    have h4 : j₁ % L = j₂ % L := hm3
    rwa [Nat.mod_eq_of_lt h₁, Nat.mod_eq_of_lt h₂] at h4
  have hsurj := Finset.surj_on_of_inj_on_of_card_le
      (s := Finset.range L) (t := Finset.range L)
      (fun j _ => (k * j + s) % L)
      (fun j hj => Finset.mem_range.mpr (Nat.mod_lt _ hL))
      (fun j₁ j₂ h₁ h₂ heq =>
        hinj j₁ j₂ (Finset.mem_range.mp h₁) (Finset.mem_range.mp h₂) heq)
      (le_refl _)
  obtain ⟨j₀, hj₀, hj₀eq⟩ := hsurj t (Finset.mem_range.mpr ht)
  rw [Finset.card_eq_one]
  refine ⟨j₀, ?_⟩
  rw [Finset.eq_singleton_iff_unique_mem]
  constructor
  · exact Finset.mem_filter.mpr ⟨hj₀, hj₀eq.symm⟩
  · intro j hj
    obtain ⟨hjr, hjeq⟩ := Finset.mem_filter.mp hj
    exact hinj j j₀ (Finset.mem_range.mp hjr) (Finset.mem_range.mp hj₀)
      (by rw [hjeq, hj₀eq])

theorem mods_sum_iff (L c d j : Nat) (hL : 0 < L) (hcd : c ≠ d) (hc : c < L)
    (hd : d < L) :
    ((c + j) % L + (d + j) % L = L - 2) ↔ ((2 * j + (c + d)) % L = L - 2) := by
  have hkey : (c + j + (d + j)) % L = (2 * j + (c + d)) % L := by
    congr 1
    ring
  have hmod : (c + j + (d + j)) % L = ((c + j) % L + (d + j) % L) % L :=
    Nat.add_mod _ _ _
  constructor
  · intro h
    rw [← hkey, hmod, h, Nat.mod_eq_of_lt (by omega : L - 2 < L)]
  · intro h
    have hA : (c + j) % L < L := Nat.mod_lt _ hL
    have hB : (d + j) % L < L := Nat.mod_lt _ hL
    have habm : ((c + j) % L + (d + j) % L) % L = L - 2 := by
      rw [← hmod, hkey, h]
    by_cases hX : (c + j) % L + (d + j) % L < L
    · rwa [Nat.mod_eq_of_lt hX] at habm
    · exfalso
      have hge : L ≤ (c + j) % L + (d + j) % L := le_of_not_lt hX
      have h3 : (c + j) % L + (d + j) % L - L < L := by omega
      rw [Nat.mod_eq_sub_mod hge, Nat.mod_eq_of_lt h3] at habm
      have heq : (c + j) % L = (d + j) % L := by omega
      have hm : Nat.ModEq L (c + j) (d + j) := heq
      have hm2 : Nat.ModEq L c d := Nat.ModEq.add_right_cancel' j hm
      have h4 : c % L = d % L := hm2
      rw [Nat.mod_eq_of_lt hc, Nat.mod_eq_of_lt hd] at h4
      exact hcd h4

theorem sum_ite_affine (L k s t : Nat) (hL : 0 < L) (hk : Nat.gcd L k = 1) (ht : t < L)
    (cond : Nat → Prop) [DecidablePred cond]
    (hcond : ∀ j < L, cond j ↔ (k * j + s) % L = t) :
    (∑ j ∈ Finset.range L, if cond j then 1 else 0) = 1 := by
  have h1 : ∑ j ∈ Finset.range L, (if cond j then 1 else 0)
      = ((Finset.range L).filter (fun j => cond j)).card :=
    (Finset.card_filter _ _).symm
  rw [h1]
  have h2 : (Finset.range L).filter (fun j => cond j)
      = (Finset.range L).filter (fun j => (k * j + s) % L = t) :=
    Finset.filter_congr (fun j hj => hcond j (Finset.mem_range.mp hj))
  rw [h2, card_filter_affine L k s t hL hk ht]

/-! ### Counting matches at the mirror pairing of one round -/

theorem getD_inj (w : List String) (hnd : w.Nodup) {u v : Nat}
    (hu : u < w.length) (hv : v < w.length)
    (h : w.getD u "" = w.getD v "") : u = v := by
  rw [List.getD_eq_getElem _ _ hu, List.getD_eq_getElem _ _ hv] at h
  exact (List.Nodup.getElem_inj_iff hnd).mp h

/-- In the mirror pairing `i ↔ length - (i+1)` of an even-length
duplicate-free list, the unordered pair `{p, q}` sits at exactly one
table index if the positions of `p` and `q` sum to `length - 1`, and at
none otherwise. -/
theorem countP_mirror_pair (w : List String) (p q : String) (up uq : Nat)
    (heven : w.length % 2 = 0) (hnd : w.Nodup) (hpq : p ≠ q)
    (hup : up < w.length) (huq : uq < w.length)
    (hp : w.getD up "" = p) (hq : w.getD uq "" = q) :
    (List.range (w.length / 2)).countP
      (fun i => decide ((w.getD i "" = p ∧ w.getD (w.length - (i + 1)) "" = q) ∨
        (w.getD i "" = q ∧ w.getD (w.length - (i + 1)) "" = p))) =
      if up + uq = w.length - 1 then 1 else 0 := by
  have hne : up ≠ uq := by
    intro h
    apply hpq
    rw [← hp, ← hq, h]
  by_cases hsum : up + uq = w.length - 1
  · rw [if_pos hsum]
    have hmin : min up uq < w.length / 2 := by omega
    have hcong : ∀ i ∈ List.range (w.length / 2),
        ((decide ((w.getD i "" = p ∧ w.getD (w.length - (i + 1)) "" = q) ∨
          (w.getD i "" = q ∧ w.getD (w.length - (i + 1)) "" = p))) = true ↔
          (decide (i = min up uq)) = true) := by
      intro i hi
      have hi2 : i < w.length / 2 := List.mem_range.mp hi
      simp only [decide_eq_true_eq]
      constructor
      · rintro (⟨h1, h2⟩ | ⟨h1, h2⟩)
        · have e1 : i = up := getD_inj w hnd (by omega) hup (by rw [h1, hp])
          have e2 : w.length - (i + 1) = uq :=
            getD_inj w hnd (by omega) huq (by rw [h2, hq])
          omega
        · have e1 : i = uq := getD_inj w hnd (by omega) huq (by rw [h1, hq])
          have e2 : w.length - (i + 1) = up :=
            getD_inj w hnd (by omega) hup (by rw [h2, hp])
          omega
      · intro h
        rcases Nat.lt_or_ge up uq with hlt | hge
        · have e0 : i = up := by omega
          left
          constructor
          · rw [e0, hp]
          · have e1 : w.length - (i + 1) = uq := by omega
            rw [e1, hq]
        · have hgt : uq < up := by omega
          have e0 : i = uq := by omega
          right
          constructor
          · rw [e0, hq]
          · have e1 : w.length - (i + 1) = up := by omega
            rw [e1, hp]
    rw [List.countP_congr hcong, countP_range_decide_eq, if_pos hmin]
  · rw [if_neg hsum]
    rw [List.countP_eq_zero]
    intro i hi
    have hi2 : i < w.length / 2 := List.mem_range.mp hi
    simp only [decide_eq_true_eq]
    rintro (⟨h1, h2⟩ | ⟨h1, h2⟩)
    · have e1 : i = up := getD_inj w hnd (by omega) hup (by rw [h1, hp])
      have e2 : w.length - (i + 1) = uq :=
        getD_inj w hnd (by omega) huq (by rw [h2, hq])
      omega
    · have e1 : i = uq := getD_inj w hnd (by omega) huq (by rw [h1, hq])
      have e2 : w.length - (i + 1) = up :=
        getD_inj w hnd (by omega) hup (by rw [h2, hp])
      omega

/-- Each member of an even-length duplicate-free list sits at exactly one
table index of the mirror pairing. -/
theorem countP_mirror_mem (w : List String) (x : String)
    (heven : w.length % 2 = 0) (hnd : w.Nodup) (hx : x ∈ w) :
    (List.range (w.length / 2)).countP
      (fun i => decide (w.getD i "" = x ∨ w.getD (w.length - (i + 1)) "" = x)) = 1 := by
  obtain ⟨u, hu, hxu⟩ := List.getElem_of_mem hx
  have hgu : w.getD u "" = x := by rw [List.getD_eq_getElem _ _ hu, hxu]
  have hm : 0 < w.length := by omega
  set i₀ := if u < w.length / 2 then u else w.length - (u + 1) with hi₀
  have hi₀lt : i₀ < w.length / 2 := by
    rw [hi₀]
    split
    · omega
    · omega
  have hcong : ∀ i ∈ List.range (w.length / 2),
      ((decide (w.getD i "" = x ∨ w.getD (w.length - (i + 1)) "" = x)) = true ↔
        (decide (i = i₀)) = true) := by
    intro i hi
    have hi2 : i < w.length / 2 := List.mem_range.mp hi
    simp only [decide_eq_true_eq]
    constructor
    · rintro (h1 | h1)
      · have e1 : i = u := getD_inj w hnd (by omega) hu (by rw [h1, hgu])
        rw [hi₀]
        rw [if_pos (by omega : u < w.length / 2)]
        omega
      · have e1 : w.length - (i + 1) = u :=
          getD_inj w hnd (by omega) hu (by rw [h1, hgu])
        rw [hi₀]
        rw [if_neg (by omega : ¬ u < w.length / 2)]
        omega
    · intro h
      rw [hi₀] at h
      by_cases hc : u < w.length / 2
      · rw [if_pos hc] at h
        left
        rw [h, hgu]
      · rw [if_neg hc] at h
        right
        have e1 : w.length - (i + 1) = u := by omega
        rw [e1, hgu]
  rw [List.countP_congr hcong, countP_range_decide_eq, if_pos hi₀lt]

/-- A label that does not occur in the list sits at no table index. -/
theorem countP_mirror_not_mem (w : List String) (x : String) (hx : x ∉ w) :
    (List.range (w.length / 2)).countP
      (fun i => decide (w.getD i "" = x ∨ w.getD (w.length - (i + 1)) "" = x)) = 0 := by
  rw [List.countP_eq_zero]
  intro i hi
  have hi2 : i < w.length / 2 := List.mem_range.mp hi
  simp only [decide_eq_true_eq]
  rintro (h1 | h1)
  · apply hx
    rw [← h1, List.getD_eq_getElem _ _ (by omega : i < w.length)]
    exact List.getElem_mem _
  · apply hx
    rw [← h1, List.getD_eq_getElem _ _ (by omega : w.length - (i + 1) < w.length)]
    exact List.getElem_mem _

/-! ### Every pair meets exactly once across the rounds -/

theorem gcd_two_of_odd (L : Nat) (hodd : L % 2 = 1) : Nat.gcd L 2 = 1 := by
  rw [Nat.gcd_comm, Nat.gcd_rec, hodd]
  rfl

/-- Core circle-method theorem: over the `ys.length` rounds, any two
distinct members of the (padded, duplicate-free) participant list
`e :: ys` occupy mirror positions in exactly one round, counting table
indices. -/
theorem total_mirror_pair (e : String) (ys : List String) (hys : ys ≠ [])
    (hodd : ys.length % 2 = 1) (hnd : (e :: ys).Nodup)
    (p q : String) (hp : p ∈ e :: ys) (hq : q ∈ e :: ys) (hpq : p ≠ q) :
    ∑ j ∈ Finset.range ys.length,
      (List.range ((rotarN j (e :: ys)).length / 2)).countP
        (fun i => decide
          (((rotarN j (e :: ys)).getD i "" = p ∧
            (rotarN j (e :: ys)).getD ((rotarN j (e :: ys)).length - (i + 1)) "" = q) ∨
           ((rotarN j (e :: ys)).getD i "" = q ∧
            (rotarN j (e :: ys)).getD ((rotarN j (e :: ys)).length - (i + 1)) "" = p))) =
      1 := by
  have hL : 0 < ys.length := List.length_pos.mpr hys
  have heven : ∀ j, (rotarN j (e :: ys)).length % 2 = 0 := by
    intro j
    rw [length_rotarN e ys hys j]
    omega
  have hndj : ∀ j, (rotarN j (e :: ys)).Nodup := by
    intro j
    rw [nodup_rotarN e ys hys j]
    exact hnd
  rcases List.mem_cons.mp hp with hpe | hpys
  · rcases List.mem_cons.mp hq with hqe | hqys
    · exact absurd (hpe.trans hqe.symm) hpq
    · -- p is the fixed participant, q sits in the circle at index d
      obtain ⟨d, hd, hdq⟩ := List.getElem_of_mem hqys
      have hblock : ∀ j ∈ Finset.range ys.length,
          (List.range ((rotarN j (e :: ys)).length / 2)).countP
            (fun i => decide
              (((rotarN j (e :: ys)).getD i "" = p ∧
                (rotarN j (e :: ys)).getD ((rotarN j (e :: ys)).length - (i + 1)) "" = q) ∨
               ((rotarN j (e :: ys)).getD i "" = q ∧
                (rotarN j (e :: ys)).getD ((rotarN j (e :: ys)).length - (i + 1)) "" = p))) =
            if (1 * j + d) % ys.length = ys.length - 1 then 1 else 0 := by
        intro j hj
        have hw : (rotarN j (e :: ys)).length = ys.length + 1 := length_rotarN e ys hys j
        have hmlt : (d + j) % ys.length < ys.length := Nat.mod_lt _ hL
        have h1 := countP_mirror_pair (rotarN j (e :: ys)) p q 0 ((d + j) % ys.length + 1)
          (heven j) (hndj j) hpq
          (by rw [hw]; omega) (by rw [hw]; omega)
          (by rw [getD_rotarN_zero e ys hys j, hpe])
          (by rw [getD_rotarN_pos e ys hys j d hd, List.getD_eq_getElem _ _ hd, hdq])
        rw [h1]
        apply if_congr _ rfl rfl
        rw [hw]
        have e2 : 1 * j + d = d + j := by rw [Nat.one_mul, Nat.add_comm]
        rw [e2]
        omega
      rw [Finset.sum_congr rfl hblock]
      exact sum_ite_affine ys.length 1 d (ys.length - 1) hL (Nat.gcd_one_right _)
        (by omega) _ (fun j _ => Iff.rfl)
  · rcases List.mem_cons.mp hq with hqe | hqys
    · -- q is the fixed participant, p sits in the circle at index c
      obtain ⟨c, hc, hcp⟩ := List.getElem_of_mem hpys
      have hblock : ∀ j ∈ Finset.range ys.length,
          (List.range ((rotarN j (e :: ys)).length / 2)).countP
            (fun i => decide
              (((rotarN j (e :: ys)).getD i "" = p ∧
                (rotarN j (e :: ys)).getD ((rotarN j (e :: ys)).length - (i + 1)) "" = q) ∨
               ((rotarN j (e :: ys)).getD i "" = q ∧
                (rotarN j (e :: ys)).getD ((rotarN j (e :: ys)).length - (i + 1)) "" = p))) =
            if (1 * j + c) % ys.length = ys.length - 1 then 1 else 0 := by
        intro j hj
        have hw : (rotarN j (e :: ys)).length = ys.length + 1 := length_rotarN e ys hys j
        have hmlt : (c + j) % ys.length < ys.length := Nat.mod_lt _ hL
        have h1 := countP_mirror_pair (rotarN j (e :: ys)) p q ((c + j) % ys.length + 1) 0
          (heven j) (hndj j) hpq
          (by rw [hw]; omega) (by rw [hw]; omega)
          (by rw [getD_rotarN_pos e ys hys j c hc, List.getD_eq_getElem _ _ hc, hcp])
          (by rw [getD_rotarN_zero e ys hys j, hqe])
        rw [h1]
        apply if_congr _ rfl rfl
        rw [hw]
        have e2 : 1 * j + c = c + j := by rw [Nat.one_mul, Nat.add_comm]
        rw [e2]
        omega
      rw [Finset.sum_congr rfl hblock]
      exact sum_ite_affine ys.length 1 c (ys.length - 1) hL (Nat.gcd_one_right _)
        (by omega) _ (fun j _ => Iff.rfl)
    · -- both sit in the circle, at distinct indices c and d
      obtain ⟨c, hc, hcp⟩ := List.getElem_of_mem hpys
      obtain ⟨d, hd, hdq⟩ := List.getElem_of_mem hqys
      have hcd : c ≠ d := by
        intro h
        apply hpq
        subst h
        rw [← hcp, ← hdq]
      have hblock : ∀ j ∈ Finset.range ys.length,
          (List.range ((rotarN j (e :: ys)).length / 2)).countP
            (fun i => decide
              (((rotarN j (e :: ys)).getD i "" = p ∧
                (rotarN j (e :: ys)).getD ((rotarN j (e :: ys)).length - (i + 1)) "" = q) ∨
               ((rotarN j (e :: ys)).getD i "" = q ∧
                (rotarN j (e :: ys)).getD ((rotarN j (e :: ys)).length - (i + 1)) "" = p))) =
            if (2 * j + (c + d)) % ys.length = ys.length - 2 then 1 else 0 := by
        intro j hj
        have hw : (rotarN j (e :: ys)).length = ys.length + 1 := length_rotarN e ys hys j
        have hmltc : (c + j) % ys.length < ys.length := Nat.mod_lt _ hL
        have hmltd : (d + j) % ys.length < ys.length := Nat.mod_lt _ hL
        have h1 := countP_mirror_pair (rotarN j (e :: ys)) p q
          ((c + j) % ys.length + 1) ((d + j) % ys.length + 1)
          (heven j) (hndj j) hpq
          (by rw [hw]; omega) (by rw [hw]; omega)
          (by rw [getD_rotarN_pos e ys hys j c hc, List.getD_eq_getElem _ _ hc, hcp])
          (by rw [getD_rotarN_pos e ys hys j d hd, List.getD_eq_getElem _ _ hd, hdq])
        rw [h1]
        apply if_congr _ rfl rfl
        rw [hw]
        have step1 : ((c + j) % ys.length + 1 + ((d + j) % ys.length + 1) =
            ys.length + 1 - 1) ↔
            ((c + j) % ys.length + (d + j) % ys.length = ys.length - 2) := by
          omega
        rw [step1]
        exact mods_sum_iff ys.length c d j hL hcd hc hd
      rw [Finset.sum_congr rfl hblock]
      exact sum_ite_affine ys.length 2 (c + d) (ys.length - 2) hL
        (gcd_two_of_odd ys.length hodd) (by omega) _ (fun j _ => Iff.rfl)

/-! ### Plumbing: from rows to pairs, and across the rounds -/

theorem countP_filasRonda (bye : String) (bal : Bool) (r : Nat) (w : List String)
    (mitad : Nat) (φ : Fila → Bool) (ψ : String × String → Bool)
    (h : ∀ mesa ab, φ (filaDe bye bal r mesa ab) = ψ ab) :
    (filasRonda bye bal r w mitad).countP φ =
      (List.range mitad).countP
        (fun i => ψ (w.getD i "", w.getD (w.length - (i + 1)) "")) := by
  rw [filasRonda, countP_conMesas bye bal r 1 _ φ ψ h, countP_pares]

theorem getD_pares (w : List String) (mitad i : Nat) (h : i < mitad) :
    (pares w mitad).getD i ("", "") =
      (w.getD i "", w.getD (w.length - (i + 1)) "") := by
  rw [List.getD_eq_getElem _ _ (by rw [length_pares]; exact h)]
  simp [pares]

theorem mem_conMesas (bye : String) (bal : Bool) (r : Nat) :
    ∀ (l : List (String × String)) (mesa : Nat) (f : Fila),
      f ∈ conMesas bye bal r mesa l ↔
        ∃ i < l.length, f = filaDe bye bal r (mesa + i) (l.getD i ("", "")) := by
  intro l
  induction l with
  | nil => intro mesa f; simp [conMesas]
  | cons ab resto ih =>
      intro mesa f
      simp only [conMesas, List.mem_cons, ih (mesa + 1)]
      constructor
      · rintro (rfl | ⟨i, hi, rfl⟩)
        · exact ⟨0, by simp, by simp⟩
        · refine ⟨i + 1, by simp only [List.length_cons]; omega, ?_⟩
          have e1 : mesa + 1 + i = mesa + (i + 1) := by omega
          rw [e1]
          simp
      · rintro ⟨i, hi, rfl⟩
        simp only [List.length_cons] at hi
        cases i with
        | zero => left; simp
        | succ i =>
            right
            refine ⟨i, by omega, ?_⟩
            have e1 : mesa + (i + 1) = mesa + 1 + i := by omega
            rw [e1]
            simp

theorem mem_filasRonda (bye : String) (bal : Bool) (r : Nat) (w : List String)
    (mitad : Nat) (f : Fila) :
    f ∈ filasRonda bye bal r w mitad ↔
      ∃ i < mitad, f = filaDe bye bal r (1 + i)
        (w.getD i "", w.getD (w.length - (i + 1)) "") := by
  rw [filasRonda, mem_conMesas]
  constructor
  · rintro ⟨i, hi, rfl⟩
    rw [length_pares] at hi
    exact ⟨i, hi, by rw [getD_pares w mitad i hi]⟩
  · rintro ⟨i, hi, rfl⟩
    refine ⟨i, by rw [length_pares]; exact hi, ?_⟩
    rw [getD_pares w mitad i hi]

theorem ronda_of_mem_filasRonda (bye : String) (bal : Bool) (r : Nat)
    (w : List String) (mitad : Nat) (f : Fila)
    (h : f ∈ filasRonda bye bal r w mitad) : f.ronda = r := by
  obtain ⟨i, hi, rfl⟩ := (mem_filasRonda bye bal r w mitad f).mp h
  exact filaDe_ronda _ _ _ _ _

theorem mem_idaAux (bye : String) (bal : Bool) (mitad : Nat) :
    ∀ (k r : Nat) (w : List String) (f : Fila),
      f ∈ idaAux bye bal mitad r k w ↔
        ∃ j < k, f ∈ filasRonda bye bal (r + j) (rotarN j w) mitad := by
  intro k
  induction k with
  | zero => intro r w f; simp [idaAux]
  | succ k ih =>
      intro r w f
      simp only [idaAux, List.mem_append, ih (r + 1) (rotar w)]
      constructor
      · rintro (h | ⟨j, hj, h⟩)
        · exact ⟨0, by omega, by simpa using h⟩
        · refine ⟨j + 1, by omega, ?_⟩
          have e1 : r + 1 + j = r + (j + 1) := by omega
          rw [e1] at h
          exact h
      · rintro ⟨j, hj, h⟩
        cases j with
        | zero => left; simpa using h
        | succ j =>
            right
            refine ⟨j, by omega, ?_⟩
            have e1 : r + 1 + j = r + (j + 1) := by omega
            rw [e1]
            exact h

theorem ronda_of_mem_idaAux (bye : String) (bal : Bool) (mitad r k : Nat)
    (w : List String) (f : Fila) (h : f ∈ idaAux bye bal mitad r k w) :
    r ≤ f.ronda ∧ f.ronda < r + k := by
  obtain ⟨j, hj, hf⟩ := (mem_idaAux bye bal mitad k r w f).mp h
  have := ronda_of_mem_filasRonda bye bal (r + j) (rotarN j w) mitad f hf
  omega

theorem countP_ronda_filasRonda (bye : String) (bal : Bool) (r r₀ : Nat)
    (w : List String) (mitad : Nat) (φ : Fila → Bool) :
    (filasRonda bye bal r w mitad).countP (fun f => f.ronda == r₀ && φ f) =
      if r₀ = r then (filasRonda bye bal r w mitad).countP φ else 0 := by
  by_cases h : r₀ = r
  · subst h
    rw [if_pos rfl]
    apply List.countP_congr
    intro f hf
    rw [ronda_of_mem_filasRonda bye bal r₀ w mitad f hf]
    simp
  · rw [if_neg h]
    rw [List.countP_eq_zero]
    intro f hf
    rw [ronda_of_mem_filasRonda bye bal r w mitad f hf]
    simp
    intro hc
    exact absurd hc.symm h

theorem sum_block_single (k r₀ : Nat) (g : Nat → Nat) (h1 : 1 ≤ r₀) (h2 : r₀ ≤ k) :
    (∑ j ∈ Finset.range k, if r₀ = 1 + j then g j else 0) = g (r₀ - 1) := by
  have h3 : ∑ j ∈ Finset.range k, (if r₀ = 1 + j then g j else 0)
      = (if r₀ = 1 + (r₀ - 1) then g (r₀ - 1) else 0) := by
    apply Finset.sum_eq_single
    · intro b _ hb
      rw [if_neg (by omega)]
    · intro hout
      exact absurd (Finset.mem_range.mpr (by omega)) hout
  rw [h3, if_pos (by omega)]

theorem sum_block_zero (k r₀ : Nat) (g : Nat → Nat) (h : ¬(1 ≤ r₀ ∧ r₀ ≤ k)) :
    (∑ j ∈ Finset.range k, if r₀ = 1 + j then g j else 0) = 0 := by
  apply Finset.sum_eq_zero
  intro j hj
  have := Finset.mem_range.mp hj
  rw [if_neg (by omega)]

/-- Count of rows of round `r₀` satisfying `φ`, over the whole first leg:
it is the count over the block of round `r₀` when `1 ≤ r₀ ≤ k`, else `0`. -/
theorem countP_ronda_idaAux (bye : String) (bal : Bool) (mitad k r₀ : Nat)
    (w : List String) (φ : Fila → Bool) :
    (idaAux bye bal mitad 1 k w).countP (fun f => f.ronda == r₀ && φ f) =
      if 1 ≤ r₀ ∧ r₀ ≤ k then
        (filasRonda bye bal r₀ (rotarN (r₀ - 1) w) mitad).countP φ
      else 0 := by
  rw [countP_idaAux]
  have hcong : ∀ j ∈ Finset.range k,
      (filasRonda bye bal (1 + j) (rotarN j w) mitad).countP (fun f => f.ronda == r₀ && φ f)
        = if r₀ = 1 + j then
            (filasRonda bye bal (1 + j) (rotarN j w) mitad).countP φ else 0 := by
    intro j _
    exact countP_ronda_filasRonda bye bal (1 + j) r₀ (rotarN j w) mitad φ
  rw [Finset.sum_congr rfl hcong]
  by_cases h : 1 ≤ r₀ ∧ r₀ ≤ k
  · rw [if_pos h,
      sum_block_single k r₀ (fun j => (filasRonda bye bal (1 + j) (rotarN j w) mitad).countP φ)
        h.1 h.2]
    have e1 : 1 + (r₀ - 1) = r₀ := by omega
    rw [e1]
  · rw [if_neg h, sum_block_zero k r₀ _ h]

/-! ### The padded team list and the call wrapper -/

/-- The team list after bye padding (the `equipos` of `nucleo`). -/
def equiposPad (equipos0 : List String) (n0 : Nat) (bye : String) : List String :=
  if n0 % 2 == 1 then equipos0 ++ [bye] else equipos0

/-- The rows of the first leg, before sorting. -/
def preIda (equipos0 : List String) (n0 : Nat) (bal : Bool) (bye : String) : List Fila :=
  idaAux bye bal (mitadDe n0) 1 (rondasIda n0) (equiposPad equipos0 n0 bye)

/-- All generated rows (both legs when `double_round`), before sorting. -/
def preTodo (equipos0 : List String) (n0 : Nat) (dr bal : Bool) (bye : String) :
    List Fila :=
  if dr then
    preIda equipos0 n0 bal bye ++ vuelta (rondasIda n0) (preIda equipos0 n0 bal bye)
  else preIda equipos0 n0 bal bye

theorem nucleo_eq (equipos0 : List String) (n0 : Nat) (dr bal : Bool) (bye : String) :
    nucleo equipos0 n0 dr bal bye = (preTodo equipos0 n0 dr bal bye).mergeSort claveLE :=
  rfl

theorem nucleo_perm (equipos0 : List String) (n0 : Nat) (dr bal : Bool) (bye : String) :
    (nucleo equipos0 n0 dr bal bye).Perm (preTodo equipos0 n0 dr bal bye) := by
  rw [nucleo_eq]
  exact List.mergeSort_perm _ _

theorem length_equiposPad (equipos0 : List String) (n0 : Nat) (bye : String)
    (hlen : equipos0.length = n0) :
    (equiposPad equipos0 n0 bye).length = nPadded n0 := by
  rcases Nat.mod_two_eq_zero_or_one n0 with h | h
  · rw [equiposPad, nPadded, h]
    simpa using hlen
  · rw [equiposPad, nPadded, h]
    simpa using hlen

theorem even_nPadded (n0 : Nat) : nPadded n0 % 2 = 0 := by
  rcases Nat.mod_two_eq_zero_or_one n0 with h | h
  · rw [nPadded, h]
    simpa using h
  · rw [nPadded, h]
    simp
    omega

theorem two_le_nPadded (n0 : Nat) (hn : 2 ≤ n0) : 2 ≤ nPadded n0 := by
  rcases Nat.mod_two_eq_zero_or_one n0 with h | h
  · rw [nPadded, h]
    simpa using hn
  · rw [nPadded, h]
    simp
    omega

theorem equiposPad_even (equipos0 : List String) (n0 : Nat) (bye : String)
    (h : n0 % 2 = 0) : equiposPad equipos0 n0 bye = equipos0 := by
  have hcond : (n0 % 2 == 1) = false := by simp [h]
  rw [equiposPad, hcond]
  rfl

theorem equiposPad_odd (equipos0 : List String) (n0 : Nat) (bye : String)
    (h : n0 % 2 = 1) : equiposPad equipos0 n0 bye = equipos0 ++ [bye] := by
  have hcond : (n0 % 2 == 1) = true := by simp [h]
  rw [equiposPad, hcond]
  rfl

theorem nodup_equiposPad (equipos0 : List String) (n0 : Nat) (bye : String)
    (hnd : equipos0.Nodup) (hbye : bye ∉ equipos0) :
    (equiposPad equipos0 n0 bye).Nodup := by
  rcases Nat.mod_two_eq_zero_or_one n0 with h | h
  · rw [equiposPad_even equipos0 n0 bye h]
    exact hnd
  · rw [equiposPad_odd equipos0 n0 bye h]
    rw [List.nodup_append]
    refine ⟨hnd, List.nodup_singleton _, ?_⟩
    intro a ha hb
    rw [List.mem_singleton] at hb
    subst hb
    exact hbye ha

theorem mem_equiposPad_of_mem (equipos0 : List String) (n0 : Nat) (bye : String)
    (x : String) (hx : x ∈ equipos0) : x ∈ equiposPad equipos0 n0 bye := by
  rcases Nat.mod_two_eq_zero_or_one n0 with h | h
  · rw [equiposPad, h]
    simpa using hx
  · rw [equiposPad, h]
    simp
    exact Or.inl hx

theorem bye_mem_equiposPad (equipos0 : List String) (n0 : Nat) (bye : String)
    (h : n0 % 2 = 1) : bye ∈ equiposPad equipos0 n0 bye := by
  rw [equiposPad, h]
  simp

theorem mem_equiposPad_iff (equipos0 : List String) (n0 : Nat) (bye : String)
    (x : String) :
    x ∈ equiposPad equipos0 n0 bye ↔ x ∈ equipos0 ∨ (n0 % 2 = 1 ∧ x = bye) := by
  rcases Nat.mod_two_eq_zero_or_one n0 with h | h
  · rw [equiposPad_even equipos0 n0 bye h]
    constructor
    · exact Or.inl
    · rintro (hx | ⟨h1, _⟩)
      · exact hx
      · omega
  · rw [equiposPad_odd equipos0 n0 bye h]
    simp [h]

theorem generar_fixture_ok (n : Int) (names : Option (List String))
    (dr bal : Bool) (bye : String) (hn : 2 ≤ n)
    (hfit : ∀ l, names = some l → (l.length : Int) = n) :
    generar_fixture n names dr bal bye =
      Except.ok (nucleo (equiposDe n names) n.toNat dr bal bye) := by
  rw [generar_fixture.eq_def, if_neg (by omega)]
  cases names with
  | none => rfl
  | some l =>
      have hl := hfit l rfl
      simp only [equiposDe]
      rw [if_neg (not_not_intro hl)]

theorem length_equiposDe (n : Int) (names : Option (List String)) (hn : 2 ≤ n)
    (hfit : ∀ l, names = some l → (l.length : Int) = n) :
    (equiposDe n names).length = n.toNat := by
  cases names with
  | some l =>
      have hl := hfit l rfl
      simp only [equiposDe]
      omega
  | none =>
      simp [equiposDe, nombresPorDefecto]

/-! ### Row predicates through `filaDe` -/

theorem filaDe_bye_eq (bye : String) (bal : Bool) (r mesa : Nat) (a b : String)
    (h : a = bye ∨ b = bye) :
    filaDe bye bal r mesa (a, b) =
      { ronda := r, mesa := mesa, locl := if b = bye then a else b,
        visita := "", nota := "DESCANSA" } := by
  unfold filaDe
  rw [if_pos h]

theorem filaDe_swap_eq (bye : String) (bal : Bool) (r mesa : Nat) (a b : String)
    (h : ¬(a = bye ∨ b = bye)) (h2 : bal ∧ r % 2 = 0) :
    filaDe bye bal r mesa (a, b) =
      { ronda := r, mesa := mesa, locl := b, visita := a, nota := "" } := by
  unfold filaDe
  rw [if_neg h, if_pos h2]

theorem filaDe_plain_eq (bye : String) (bal : Bool) (r mesa : Nat) (a b : String)
    (h : ¬(a = bye ∨ b = bye)) (h2 : ¬(bal ∧ r % 2 = 0)) :
    filaDe bye bal r mesa (a, b) =
      { ronda := r, mesa := mesa, locl := a, visita := b, nota := "" } := by
  unfold filaDe
  rw [if_neg h, if_neg h2]

theorem filaDe_par_pred (bye : String) (bal : Bool) (r mesa : Nat) (ab : String × String)
    (p q : String) (hp0 : p ≠ "") (hq0 : q ≠ "") (hpb : p ≠ bye) (hqb : q ≠ bye) :
    (((filaDe bye bal r mesa ab).locl == p && (filaDe bye bal r mesa ab).visita == q) ||
      ((filaDe bye bal r mesa ab).locl == q && (filaDe bye bal r mesa ab).visita == p)) =
      decide ((ab.1 = p ∧ ab.2 = q) ∨ (ab.1 = q ∧ ab.2 = p)) := by
  obtain ⟨a, b⟩ := ab
  by_cases hab : a = bye ∨ b = bye
  · rw [filaDe_bye_eq bye bal r mesa a b hab, Bool.eq_iff_iff]
    simp only [Bool.or_eq_true, Bool.and_eq_true, beq_iff_eq, decide_eq_true_eq]
    rcases hab with ha | hb
    · subst ha
      simp [Ne.symm hp0, Ne.symm hq0, Ne.symm hpb, Ne.symm hqb]
    · subst hb
      simp [Ne.symm hp0, Ne.symm hq0, Ne.symm hpb, Ne.symm hqb]
  · by_cases hbal : bal ∧ r % 2 = 0
    · rw [filaDe_swap_eq bye bal r mesa a b hab hbal, Bool.eq_iff_iff]
      simp only [Bool.or_eq_true, Bool.and_eq_true, beq_iff_eq, decide_eq_true_eq]
      tauto
    · rw [filaDe_plain_eq bye bal r mesa a b hab hbal, Bool.eq_iff_iff]
      simp only [Bool.or_eq_true, Bool.and_eq_true, beq_iff_eq, decide_eq_true_eq]

theorem filaDe_desc_pred (bye : String) (bal : Bool) (r mesa : Nat) (ab : String × String)
    (p : String) (hpb : p ≠ bye) :
    ((filaDe bye bal r mesa ab).nota == "DESCANSA" &&
      (filaDe bye bal r mesa ab).locl == p) =
      decide ((ab.1 = p ∧ ab.2 = bye) ∨ (ab.1 = bye ∧ ab.2 = p)) := by
  obtain ⟨a, b⟩ := ab
  by_cases hb : b = bye
  · rw [filaDe_bye_eq bye bal r mesa a b (Or.inr hb), Bool.eq_iff_iff]
    simp only [Bool.and_eq_true, beq_iff_eq, decide_eq_true_eq]
    simp [hb, Ne.symm hpb]
  · by_cases ha : a = bye
    · rw [filaDe_bye_eq bye bal r mesa a b (Or.inl ha), Bool.eq_iff_iff]
      simp only [Bool.and_eq_true, beq_iff_eq, decide_eq_true_eq]
      simp [ha, Ne.symm hpb, hb]
    · have hab : ¬(a = bye ∨ b = bye) := by tauto
      by_cases hbal : bal ∧ r % 2 = 0
      · rw [filaDe_swap_eq bye bal r mesa a b hab hbal, Bool.eq_iff_iff]
        simp only [Bool.and_eq_true, beq_iff_eq, decide_eq_true_eq]
        simp [ha, hb]
      · rw [filaDe_plain_eq bye bal r mesa a b hab hbal, Bool.eq_iff_iff]
        simp only [Bool.and_eq_true, beq_iff_eq, decide_eq_true_eq]
        simp [ha, hb]

theorem filaDe_nota_pred (bye : String) (bal : Bool) (r mesa : Nat)
    (ab : String × String) :
    ((filaDe bye bal r mesa ab).nota == "DESCANSA") =
      decide (ab.1 = bye ∨ ab.2 = bye) := by
  obtain ⟨a, b⟩ := ab
  by_cases hab : a = bye ∨ b = bye
  · rw [filaDe_bye_eq bye bal r mesa a b hab, Bool.eq_iff_iff]
    simp only [beq_iff_eq, decide_eq_true_eq]
    simpa using hab
  · by_cases hbal : bal ∧ r % 2 = 0
    · rw [filaDe_swap_eq bye bal r mesa a b hab hbal, Bool.eq_iff_iff]
      simp only [beq_iff_eq, decide_eq_true_eq]
      simpa using hab
    · rw [filaDe_plain_eq bye bal r mesa a b hab hbal, Bool.eq_iff_iff]
      simp only [beq_iff_eq, decide_eq_true_eq]
      simpa using hab

theorem filaDe_aparece_pred (bye : String) (bal : Bool) (r mesa : Nat)
    (ab : String × String) (lbl : String) (hl0 : lbl ≠ "") (hlb : lbl ≠ bye) :
    apareceEn lbl (filaDe bye bal r mesa ab) =
      decide (ab.1 = lbl ∨ ab.2 = lbl) := by
  obtain ⟨a, b⟩ := ab
  unfold apareceEn
  by_cases hb : b = bye
  · rw [filaDe_bye_eq bye bal r mesa a b (Or.inr hb), Bool.eq_iff_iff]
    simp only [Bool.or_eq_true, beq_iff_eq, decide_eq_true_eq]
    simp [hb, Ne.symm hl0, Ne.symm hlb]
  · by_cases ha : a = bye
    · rw [filaDe_bye_eq bye bal r mesa a b (Or.inl ha), Bool.eq_iff_iff]
      simp only [Bool.or_eq_true, beq_iff_eq, decide_eq_true_eq]
      simp [ha, hb, Ne.symm hl0, Ne.symm hlb]
    · have hab : ¬(a = bye ∨ b = bye) := by tauto
      by_cases hbal : bal ∧ r % 2 = 0
      · rw [filaDe_swap_eq bye bal r mesa a b hab hbal, Bool.eq_iff_iff]
        simp only [Bool.or_eq_true, beq_iff_eq, decide_eq_true_eq]
        tauto
      · rw [filaDe_plain_eq bye bal r mesa a b hab hbal, Bool.eq_iff_iff]
        simp only [Bool.or_eq_true, beq_iff_eq, decide_eq_true_eq]

/-! ### Pair counts over the first leg -/

theorem exists_cons_of_length_ge_two (w : List String) (h : 2 ≤ w.length) :
    ∃ e ys, w = e :: ys ∧ ys ≠ [] := by
  cases w with
  | nil => simp at h
  | cons e ys =>
      refine ⟨e, ys, rfl, ?_⟩
      intro hc
      rw [hc] at h
      simp at h

theorem total_pares_pad (equipos0 : List String) (n0 : Nat) (bye : String)
    (hlen : equipos0.length = n0) (hn : 2 ≤ n0)
    (hnd : (equiposPad equipos0 n0 bye).Nodup)
    (p q : String) (hp : p ∈ equiposPad equipos0 n0 bye)
    (hq : q ∈ equiposPad equipos0 n0 bye) (hpq : p ≠ q) :
    ∑ j ∈ Finset.range (rondasIda n0),
      (List.range (mitadDe n0)).countP
        (fun i => decide
          (((rotarN j (equiposPad equipos0 n0 bye)).getD i "" = p ∧
            (rotarN j (equiposPad equipos0 n0 bye)).getD
              ((rotarN j (equiposPad equipos0 n0 bye)).length - (i + 1)) "" = q) ∨
           ((rotarN j (equiposPad equipos0 n0 bye)).getD i "" = q ∧
            (rotarN j (equiposPad equipos0 n0 bye)).getD
              ((rotarN j (equiposPad equipos0 n0 bye)).length - (i + 1)) "" = p))) = 1 := by
  have hlenp : (equiposPad equipos0 n0 bye).length = nPadded n0 :=
    length_equiposPad equipos0 n0 bye hlen
  have h2 : 2 ≤ nPadded n0 := two_le_nPadded n0 hn
  obtain ⟨e, ys, hw, hys⟩ :=
    exists_cons_of_length_ge_two (equiposPad equipos0 n0 bye) (by omega)
  have hysl : ys.length = nPadded n0 - 1 := by
    rw [hw] at hlenp
    simp only [List.length_cons] at hlenp
    omega
  have heven := even_nPadded n0
  have hodd : ys.length % 2 = 1 := by omega
  rw [hw] at hp hq hnd ⊢
  have hr : rondasIda n0 = ys.length := by
    rw [rondasIda]
    omega
  rw [hr]
  have hsummand : ∀ j ∈ Finset.range ys.length,
      (List.range (mitadDe n0)).countP
        (fun i => decide
          (((rotarN j (e :: ys)).getD i "" = p ∧
            (rotarN j (e :: ys)).getD ((rotarN j (e :: ys)).length - (i + 1)) "" = q) ∨
           ((rotarN j (e :: ys)).getD i "" = q ∧
            (rotarN j (e :: ys)).getD ((rotarN j (e :: ys)).length - (i + 1)) "" = p))) =
      (List.range ((rotarN j (e :: ys)).length / 2)).countP
        (fun i => decide
          (((rotarN j (e :: ys)).getD i "" = p ∧
            (rotarN j (e :: ys)).getD ((rotarN j (e :: ys)).length - (i + 1)) "" = q) ∨
           ((rotarN j (e :: ys)).getD i "" = q ∧
            (rotarN j (e :: ys)).getD ((rotarN j (e :: ys)).length - (i + 1)) "" = p))) := by
    intro j _
    have hlr : (rotarN j (e :: ys)).length = ys.length + 1 := length_rotarN e ys hys j
    have : mitadDe n0 = (rotarN j (e :: ys)).length / 2 := by
      rw [hlr, mitadDe]
      omega
    rw [this]
  rw [Finset.sum_congr rfl hsummand]
  exact total_mirror_pair e ys hys hodd hnd p q hp hq hpq

theorem cuentaPar_preIda (equipos0 : List String) (n0 : Nat) (bal : Bool) (bye : String)
    (hlen : equipos0.length = n0) (hn : 2 ≤ n0)
    (hnd : (equiposPad equipos0 n0 bye).Nodup)
    (p q : String) (hp : p ∈ equiposPad equipos0 n0 bye)
    (hq : q ∈ equiposPad equipos0 n0 bye) (hpq : p ≠ q)
    (hp0 : p ≠ "") (hq0 : q ≠ "") (hpb : p ≠ bye) (hqb : q ≠ bye) :
    cuentaPar p q (preIda equipos0 n0 bal bye) = 1 := by
  rw [cuentaPar, preIda, countP_idaAux]
  have hblock : ∀ j ∈ Finset.range (rondasIda n0),
      (filasRonda bye bal (1 + j) (rotarN j (equiposPad equipos0 n0 bye))
        (mitadDe n0)).countP
          (fun f => (f.locl == p && f.visita == q) || (f.locl == q && f.visita == p)) =
      (List.range (mitadDe n0)).countP
        (fun i => decide
          (((rotarN j (equiposPad equipos0 n0 bye)).getD i "" = p ∧
            (rotarN j (equiposPad equipos0 n0 bye)).getD
              ((rotarN j (equiposPad equipos0 n0 bye)).length - (i + 1)) "" = q) ∨
           ((rotarN j (equiposPad equipos0 n0 bye)).getD i "" = q ∧
            (rotarN j (equiposPad equipos0 n0 bye)).getD
              ((rotarN j (equiposPad equipos0 n0 bye)).length - (i + 1)) "" = p))) := by
    intro j _
    exact countP_filasRonda bye bal (1 + j) (rotarN j (equiposPad equipos0 n0 bye))
      (mitadDe n0) _
      (fun ab => decide ((ab.1 = p ∧ ab.2 = q) ∨ (ab.1 = q ∧ ab.2 = p)))
      (fun mesa ab => filaDe_par_pred bye bal (1 + j) mesa ab p q hp0 hq0 hpb hqb)
  rw [Finset.sum_congr rfl hblock]
  exact total_pares_pad equipos0 n0 bye hlen hn hnd p q hp hq hpq

/-! ### Directed counts and the mirrored leg -/

theorem preTodo_false (equipos0 : List String) (n0 : Nat) (bal : Bool) (bye : String) :
    preTodo equipos0 n0 false bal bye = preIda equipos0 n0 bal bye := rfl

theorem preTodo_true (equipos0 : List String) (n0 : Nat) (bal : Bool) (bye : String) :
    preTodo equipos0 n0 true bal bye =
      preIda equipos0 n0 bal bye ++
        vuelta (rondasIda n0) (preIda equipos0 n0 bal bye) := rfl

theorem countP_or_disjoint (l : List Fila) (pb qb : Fila → Bool)
    (h : ∀ f ∈ l, ¬(pb f = true ∧ qb f = true)) :
    l.countP (fun f => pb f || qb f) = l.countP pb + l.countP qb := by
  induction l with
  | nil => simp
  | cons f resto ih =>
      simp only [List.countP_cons, Bool.or_eq_true]
      rw [ih (fun g hg => h g (List.mem_cons_of_mem f hg))]
      have hf := h f (List.mem_cons_self f resto)
      by_cases h1 : pb f = true
      · have h2 : ¬ qb f = true := fun hc => hf ⟨h1, hc⟩
        simp [h1, h2]
        omega
      · by_cases h2 : qb f = true
        · simp [h1, h2]
          omega
        · simp [h1, h2]

theorem cuentaPar_eq_dirigida_add (p q : String) (hpq : p ≠ q) (l : List Fila) :
    cuentaPar p q l = cuentaDirigida p q l + cuentaDirigida q p l := by
  rw [cuentaPar, cuentaDirigida, cuentaDirigida]
  apply countP_or_disjoint
  intro f _
  rintro ⟨h1, h2⟩
  simp only [Bool.and_eq_true, beq_iff_eq] at h1 h2
  exact hpq (h1.1.symm.trans h2.1)

/-- Every generated first-leg row is either a plain match row (empty
note) or a BYE row with empty `visita`. -/
theorem forma_fila_preIda (equipos0 : List String) (n0 : Nat) (bal : Bool)
    (bye : String) (f : Fila) (h : f ∈ preIda equipos0 n0 bal bye) :
    f.nota = "" ∨ (f.nota = "DESCANSA" ∧ f.visita = "") := by
  rw [preIda] at h
  obtain ⟨j, hj, hf⟩ := (mem_idaAux bye bal (mitadDe n0) (rondasIda n0) 1
    (equiposPad equipos0 n0 bye) f).mp h
  obtain ⟨i, hi, rfl⟩ := (mem_filasRonda bye bal (1 + j) _ (mitadDe n0) f).mp hf
  by_cases hab : (rotarN j (equiposPad equipos0 n0 bye)).getD i "" = bye ∨
      (rotarN j (equiposPad equipos0 n0 bye)).getD
        ((rotarN j (equiposPad equipos0 n0 bye)).length - (i + 1)) "" = bye
  · right
    rw [filaDe_bye_eq bye bal (1 + j) (1 + i) _ _ hab]
    exact ⟨rfl, rfl⟩
  · left
    by_cases hbal : bal ∧ (1 + j) % 2 = 0
    · rw [filaDe_swap_eq bye bal (1 + j) (1 + i) _ _ hab hbal]
    · rw [filaDe_plain_eq bye bal (1 + j) (1 + i) _ _ hab hbal]

theorem dirigida_vuelta (R : Nat) (F : List Fila) (p q : String)
    (hp0 : p ≠ "") (hq0 : q ≠ "")
    (hshape : ∀ f ∈ F, f.nota = "" ∨ (f.nota = "DESCANSA" ∧ f.visita = "")) :
    cuentaDirigida p q (vuelta R F) = cuentaDirigida q p F := by
  rw [cuentaDirigida, vuelta, List.countP_map, cuentaDirigida]
  apply List.countP_congr
  intro f hf
  show ((espejo R f).locl == p && (espejo R f).visita == q) = true ↔
    (f.locl == q && f.visita == p) = true
  rcases hshape f hf with hn | ⟨hn, hv⟩
  · rw [espejo, if_neg (by rw [hn]; decide)]
    simp only [Bool.and_eq_true, beq_iff_eq]
    constructor
    · rintro ⟨h1, h2⟩
      exact ⟨h2, h1⟩
    · rintro ⟨h1, h2⟩
      exact ⟨h2, h1⟩
  · rw [espejo, if_pos hn]
    simp only [Bool.and_eq_true, beq_iff_eq]
    simp [hv, Ne.symm hq0, Ne.symm hp0]

/-- Claim C1: for every n ≥ 2 and valid inputs, in a single round-robin
every unordered pair of distinct non-bye participants appears in exactly
one match of the result of `generar_fixture`; in a double round-robin it
appears exactly once in each orientation (hence twice, with home and
away swapped between the two occurrences). -/
theorem claim_C1_pares (n : Int) (names : Option (List String)) (dr bal : Bool)
    (bye p q : String)
    (hn : 2 ≤ n)
    (hfit : ∀ l, names = some l → (l.length : Int) = n)
    (hnd : (equiposDe n names).Nodup)
    (hbye : bye ∉ equiposDe n names)
    (hp : p ∈ equiposDe n names) (hq : q ∈ equiposDe n names) (hpq : p ≠ q)
    (hp0 : p ≠ "") (hq0 : q ≠ "") :
    ∃ out, generar_fixture n names dr bal bye = Except.ok out ∧
      (dr = false → cuentaPar p q out = 1) ∧
      (dr = true → cuentaDirigida p q out = 1 ∧ cuentaDirigida q p out = 1) := by
  have hlen : (equiposDe n names).length = n.toNat := length_equiposDe n names hn hfit
  have hn0 : 2 ≤ n.toNat := by omega
  have hndp : (equiposPad (equiposDe n names) n.toNat bye).Nodup :=
    nodup_equiposPad _ _ _ hnd hbye
  have hpb : p ≠ bye := fun h => hbye (h ▸ hp)
  have hqb : q ≠ bye := fun h => hbye (h ▸ hq)
  have hppad : p ∈ equiposPad (equiposDe n names) n.toNat bye :=
    mem_equiposPad_of_mem _ _ _ _ hp
  have hqpad : q ∈ equiposPad (equiposDe n names) n.toNat bye :=
    mem_equiposPad_of_mem _ _ _ _ hq
  have hshape := forma_fila_preIda (equiposDe n names) n.toNat bal bye
  have hida : cuentaPar p q (preIda (equiposDe n names) n.toNat bal bye) = 1 :=
    cuentaPar_preIda (equiposDe n names) n.toNat bal bye hlen hn0 hndp
      p q hppad hqpad hpq hp0 hq0 hpb hqb
  refine ⟨nucleo (equiposDe n names) n.toNat dr bal bye,
    generar_fixture_ok n names dr bal bye hn hfit, ?_, ?_⟩
  · intro hdr
    subst hdr
    have hperm := nucleo_perm (equiposDe n names) n.toNat false bal bye
    rw [preTodo_false] at hperm
    rw [cuentaPar, List.Perm.countP_eq _ hperm]
    exact hida
  · intro hdr
    subst hdr
    have hperm := nucleo_perm (equiposDe n names) n.toNat true bal bye
    rw [preTodo_true] at hperm
    have hsplit : ∀ p' q' : String,
        cuentaDirigida p' q' (nucleo (equiposDe n names) n.toNat true bal bye) =
          cuentaDirigida p' q' (preIda (equiposDe n names) n.toNat bal bye) +
          cuentaDirigida p' q' (vuelta (rondasIda n.toNat)
            (preIda (equiposDe n names) n.toNat bal bye)) := by
      intro p' q'
      rw [cuentaDirigida, List.Perm.countP_eq _ hperm, List.countP_append]
      rfl
    constructor
    · rw [hsplit p q, dirigida_vuelta _ _ p q hp0 hq0 hshape,
        ← cuentaPar_eq_dirigida_add p q hpq]
      exact hida
    · rw [hsplit q p, dirigida_vuelta _ _ q p hq0 hp0 hshape]
      have := cuentaPar_eq_dirigida_add p q hpq
        (preIda (equiposDe n names) n.toNat bal bye)
      omega

/-- Witness for `claim_C1_pares`: `n = 5`, default names, pair `E1, E2`. -/
theorem claim_C1_pares_witness :
    ∃ out, generar_fixture 5 none false true BYE_LABEL = Except.ok out ∧
      (false = false → cuentaPar "E1" "E2" out = 1) ∧
      (false = true → cuentaDirigida "E1" "E2" out = 1 ∧
        cuentaDirigida "E2" "E1" out = 1) :=
  claim_C1_pares 5 none false true BYE_LABEL "E1" "E2" (by decide)
    (fun l h => nomatch h) (by decide) (by decide) (by decide) (by decide)
    (by decide) (by decide) (by decide)

/-! ### Validation and the frame on the caller's list -/

/-- Claim C6: `generar_fixture` raises (returns `Except.error`) exactly
when `n < 2` or a supplied custom-name list has length different from
`n`; for every other input it returns normally. -/
theorem claim_C6_validacion (n : Int) (names : Option (List String))
    (dr bal : Bool) (bye : String) :
    ((∃ e, generar_fixture n names dr bal bye = Except.error e) ↔
      (n < 2 ∨ ∃ l, names = some l ∧ (l.length : Int) ≠ n)) ∧
    ((∃ out, generar_fixture n names dr bal bye = Except.ok out) ↔
      ¬(n < 2 ∨ ∃ l, names = some l ∧ (l.length : Int) ≠ n)) := by
  have hmain : (∃ e, generar_fixture n names dr bal bye = Except.error e) ↔
      (n < 2 ∨ ∃ l, names = some l ∧ (l.length : Int) ≠ n) := by
    cases names with
    | none =>
        simp only [generar_fixture.eq_def]
        by_cases h : n < 2
        · rw [if_pos h]
          simp [h]
        · rw [if_neg h]
          simp [h]
    | some l =>
        simp only [generar_fixture.eq_def]
        by_cases h : n < 2
        · rw [if_pos h]
          simp [h]
        · rw [if_neg h]
          by_cases h2 : (l.length : Int) ≠ n
          · rw [if_pos h2]
            simp only [Option.some.injEq]
            constructor
            · intro _
              exact Or.inr ⟨l, rfl, h2⟩
            · intro _
              exact ⟨"Si usas nombres personalizados, deben ser exactamente n.", rfl⟩
          · rw [if_neg h2]
            simp only [Option.some.injEq]
            constructor
            · rintro ⟨e, he⟩
              exact nomatch he
            · rintro (hc | ⟨l', hl', hc⟩)
              · exact absurd hc h
              · subst hl'
                exact absurd hc h2
  refine ⟨hmain, ?_⟩
  cases hval : generar_fixture n names dr bal bye with
  | error e =>
      constructor
      · rintro ⟨out, hout⟩
        exact nomatch hout
      · intro hnot
        exact absurd (hmain.mp ⟨e, hval⟩) hnot
  | ok out =>
      constructor
      · intro _
        intro hcond
        obtain ⟨e, he⟩ := hmain.mpr hcond
        rw [hval] at he
        exact nomatch he
      · intro _
        exact ⟨out, rfl⟩

theorem cuerpo_equipos_eq (n : Int) (names : Option (List String)) (bye : String) :
    (cuerpoListas n names bye).equipos = equiposPad (equiposDe n names) n.toNat bye := by
  cases hb : (n.toNat % 2 == 1) with
  | true => simp only [cuerpoListas, equiposPad, equiposDe, hb, if_true]
  | false =>
      simp only [cuerpoListas, equiposPad, equiposDe, hb]
      simp

/-- Claim C9: the caller's `names` list is never mutated.  In the
explicit-store model of the function body, the `names` cell after the
copy `names[:]` and the conditional `equipos.append(bye_label)` is
unchanged, while the appended bye sits in the separate `equipos` cell
(which is exactly the padded list the generator then uses). -/
theorem claim_C9_names_preservados (n : Int) (names : Option (List String))
    (bye : String) :
    (cuerpoListas n names bye).names = names ∧
      (cuerpoListas n names bye).equipos =
        equiposPad (equiposDe n names) n.toNat bye := by
  refine ⟨?_, cuerpo_equipos_eq n names bye⟩
  rw [cuerpoListas.eq_def]
  split <;> split <;> rfl

/-! ### Per-round counts -/

theorem rotarN_pad_length (equipos0 : List String) (n0 : Nat) (bye : String)
    (hlen : equipos0.length = n0) (hn : 2 ≤ n0) (j : Nat) :
    (rotarN j (equiposPad equipos0 n0 bye)).length = nPadded n0 := by
  have hlenp : (equiposPad equipos0 n0 bye).length = nPadded n0 :=
    length_equiposPad equipos0 n0 bye hlen
  have h2 : 2 ≤ nPadded n0 := two_le_nPadded n0 hn
  obtain ⟨e, ys, hw, hys⟩ :=
    exists_cons_of_length_ge_two (equiposPad equipos0 n0 bye) (by omega)
  rw [hw] at hlenp ⊢
  rw [length_rotarN e ys hys j]
  simp only [List.length_cons] at hlenp
  omega

theorem rotarN_pad_nodup (equipos0 : List String) (n0 : Nat) (bye : String)
    (hlen : equipos0.length = n0) (hn : 2 ≤ n0) (j : Nat)
    (hnd : (equiposPad equipos0 n0 bye).Nodup) :
    (rotarN j (equiposPad equipos0 n0 bye)).Nodup := by
  have hlenp : (equiposPad equipos0 n0 bye).length = nPadded n0 :=
    length_equiposPad equipos0 n0 bye hlen
  have h2 : 2 ≤ nPadded n0 := two_le_nPadded n0 hn
  obtain ⟨e, ys, hw, hys⟩ :=
    exists_cons_of_length_ge_two (equiposPad equipos0 n0 bye) (by omega)
  rw [hw] at hnd ⊢
  rw [nodup_rotarN e ys hys j]
  exact hnd

theorem rotarN_pad_mem (equipos0 : List String) (n0 : Nat) (bye : String)
    (hlen : equipos0.length = n0) (hn : 2 ≤ n0) (j : Nat) (x : String) :
    x ∈ rotarN j (equiposPad equipos0 n0 bye) ↔ x ∈ equiposPad equipos0 n0 bye := by
  have hlenp : (equiposPad equipos0 n0 bye).length = nPadded n0 :=
    length_equiposPad equipos0 n0 bye hlen
  have h2 : 2 ≤ nPadded n0 := two_le_nPadded n0 hn
  obtain ⟨e, ys, hw, hys⟩ :=
    exists_cons_of_length_ge_two (equiposPad equipos0 n0 bye) (by omega)
  rw [hw]
  exact mem_rotarN e ys hys j x

/-- Transfer a per-round row count to the mirror-pairing count on the
rotated list. -/
theorem countP_block_to_mirror (equipos0 : List String) (n0 : Nat) (bal : Bool)
    (bye : String) (hlen : equipos0.length = n0) (hn : 2 ≤ n0) (r j : Nat)
    (φ : Fila → Bool) (P : String → String → Prop) [∀ a b, Decidable (P a b)]
    (hφ : ∀ mesa ab, φ (filaDe bye bal r mesa ab) = decide (P ab.1 ab.2)) :
    (filasRonda bye bal r (rotarN j (equiposPad equipos0 n0 bye)) (mitadDe n0)).countP φ =
      (List.range ((rotarN j (equiposPad equipos0 n0 bye)).length / 2)).countP
        (fun i => decide (P ((rotarN j (equiposPad equipos0 n0 bye)).getD i "")
          ((rotarN j (equiposPad equipos0 n0 bye)).getD
            ((rotarN j (equiposPad equipos0 n0 bye)).length - (i + 1)) ""))) := by
  rw [countP_filasRonda bye bal r _ (mitadDe n0) φ
    (fun ab => decide (P ab.1 ab.2)) hφ]
  have hlr : (rotarN j (equiposPad equipos0 n0 bye)).length = nPadded n0 :=
    rotarN_pad_length equipos0 n0 bye hlen hn j
  have hm : mitadDe n0 = (rotarN j (equiposPad equipos0 n0 bye)).length / 2 := by
    rw [hlr, mitadDe]
  rw [hm]

theorem countP_nota_block_odd (equipos0 : List String) (n0 : Nat) (bal : Bool)
    (bye : String) (hlen : equipos0.length = n0) (hn : 2 ≤ n0)
    (hodd : n0 % 2 = 1) (hnd : (equiposPad equipos0 n0 bye).Nodup) (r j : Nat) :
    (filasRonda bye bal r (rotarN j (equiposPad equipos0 n0 bye))
      (mitadDe n0)).countP (fun f => f.nota == "DESCANSA") = 1 := by
  rw [countP_block_to_mirror equipos0 n0 bal bye hlen hn r j _
    (fun a b => a = bye ∨ b = bye)
    (fun mesa ab => filaDe_nota_pred bye bal r mesa ab)]
  apply countP_mirror_mem
  · rw [rotarN_pad_length equipos0 n0 bye hlen hn j]
    exact even_nPadded n0
  · exact rotarN_pad_nodup equipos0 n0 bye hlen hn j hnd
  · rw [rotarN_pad_mem equipos0 n0 bye hlen hn j]
    exact bye_mem_equiposPad equipos0 n0 bye hodd

theorem countP_nota_block_even (equipos0 : List String) (n0 : Nat) (bal : Bool)
    (bye : String) (hlen : equipos0.length = n0) (hn : 2 ≤ n0)
    (heven : n0 % 2 = 0) (hbye : bye ∉ equipos0) (r j : Nat) :
    (filasRonda bye bal r (rotarN j (equiposPad equipos0 n0 bye))
      (mitadDe n0)).countP (fun f => f.nota == "DESCANSA") = 0 := by
  rw [countP_block_to_mirror equipos0 n0 bal bye hlen hn r j _
    (fun a b => a = bye ∨ b = bye)
    (fun mesa ab => filaDe_nota_pred bye bal r mesa ab)]
  apply countP_mirror_not_mem
  rw [rotarN_pad_mem equipos0 n0 bye hlen hn j,
    equiposPad_even equipos0 n0 bye heven]
  exact hbye

theorem cuentaRonda_eq_guard (r₀ : Nat) (l : List Fila) :
    cuentaRonda r₀ l = l.countP (fun f => f.ronda == r₀ && (fun _ => true) f) := by
  rw [cuentaRonda]
  apply List.countP_congr
  intro f _
  simp

theorem cuentaRonda_preIda (equipos0 : List String) (n0 : Nat) (bal : Bool)
    (bye : String) (r₀ : Nat) :
    cuentaRonda r₀ (preIda equipos0 n0 bal bye) =
      if 1 ≤ r₀ ∧ r₀ ≤ rondasIda n0 then mitadDe n0 else 0 := by
  rw [cuentaRonda_eq_guard, preIda, countP_ronda_idaAux]
  by_cases h : 1 ≤ r₀ ∧ r₀ ≤ rondasIda n0
  · rw [if_pos h, if_pos h]
    rw [List.countP_true]
    exact length_filasRonda bye bal r₀ _ (mitadDe n0)
  · rw [if_neg h, if_neg h]

theorem cuentaByeRonda_eq_guard (r₀ : Nat) (l : List Fila) :
    cuentaByeRonda r₀ l =
      l.countP (fun f => f.ronda == r₀ && (fun g => g.nota == "DESCANSA") f) := by
  rfl

theorem nPadded_odd (n0 : Nat) (h : n0 % 2 = 1) : nPadded n0 = n0 + 1 := by
  have hc : (n0 % 2 == 1) = true := by simp [h]
  rw [nPadded, hc]
  rfl

theorem nPadded_even (n0 : Nat) (h : n0 % 2 = 0) : nPadded n0 = n0 := by
  have hc : (n0 % 2 == 1) = false := by simp [h]
  rw [nPadded, hc]
  rfl

theorem rondasIda_odd (n0 : Nat) (h : n0 % 2 = 1) : rondasIda n0 = n0 := by
  rw [rondasIda, nPadded_odd n0 h]
  omega

theorem rondasIda_even (n0 : Nat) (h : n0 % 2 = 0) : rondasIda n0 = n0 - 1 := by
  rw [rondasIda, nPadded_even n0 h]

theorem mitadDe_odd (n0 : Nat) (h : n0 % 2 = 1) : mitadDe n0 = (n0 + 1) / 2 := by
  rw [mitadDe, nPadded_odd n0 h]

theorem mitadDe_even (n0 : Nat) (h : n0 % 2 = 0) : mitadDe n0 = n0 / 2 := by
  rw [mitadDe, nPadded_even n0 h]

theorem cuentaByeRonda_preIda_odd (equipos0 : List String) (n0 : Nat) (bal : Bool)
    (bye : String) (hlen : equipos0.length = n0) (hn : 2 ≤ n0)
    (hodd : n0 % 2 = 1) (hnd : (equiposPad equipos0 n0 bye).Nodup) (r₀ : Nat) :
    cuentaByeRonda r₀ (preIda equipos0 n0 bal bye) =
      if 1 ≤ r₀ ∧ r₀ ≤ rondasIda n0 then 1 else 0 := by
  rw [cuentaByeRonda_eq_guard, preIda, countP_ronda_idaAux]
  by_cases h : 1 ≤ r₀ ∧ r₀ ≤ rondasIda n0
  · rw [if_pos h, if_pos h]
    exact countP_nota_block_odd equipos0 n0 bal bye hlen hn hodd hnd r₀ (r₀ - 1)
  · rw [if_neg h, if_neg h]

theorem countP_nota_preIda_even (equipos0 : List String) (n0 : Nat) (bal : Bool)
    (bye : String) (hlen : equipos0.length = n0) (hn : 2 ≤ n0)
    (heven : n0 % 2 = 0) (hbye : bye ∉ equipos0) :
    (preIda equipos0 n0 bal bye).countP (fun f => f.nota == "DESCANSA") = 0 := by
  rw [preIda, countP_idaAux]
  apply Finset.sum_eq_zero
  intro j hj
  exact countP_nota_block_even equipos0 n0 bal bye hlen hn heven hbye (1 + j) j

theorem cuentaDescansos_preIda (equipos0 : List String) (n0 : Nat) (bal : Bool)
    (bye : String) (hlen : equipos0.length = n0) (hn : 2 ≤ n0)
    (hodd : n0 % 2 = 1) (hnd : (equiposPad equipos0 n0 bye).Nodup)
    (hbyeno : bye ∉ equipos0) (p : String) (hp : p ∈ equipos0) :
    cuentaDescansos p (preIda equipos0 n0 bal bye) = 1 := by
  have hpb : p ≠ bye := fun h => hbyeno (h ▸ hp)
  rw [cuentaDescansos, preIda, countP_idaAux]
  have hblock : ∀ j ∈ Finset.range (rondasIda n0),
      (filasRonda bye bal (1 + j) (rotarN j (equiposPad equipos0 n0 bye))
        (mitadDe n0)).countP (fun f => f.nota == "DESCANSA" && f.locl == p) =
      (List.range (mitadDe n0)).countP
        (fun i => decide
          (((rotarN j (equiposPad equipos0 n0 bye)).getD i "" = p ∧
            (rotarN j (equiposPad equipos0 n0 bye)).getD
              ((rotarN j (equiposPad equipos0 n0 bye)).length - (i + 1)) "" = bye) ∨
           ((rotarN j (equiposPad equipos0 n0 bye)).getD i "" = bye ∧
            (rotarN j (equiposPad equipos0 n0 bye)).getD
              ((rotarN j (equiposPad equipos0 n0 bye)).length - (i + 1)) "" = p))) := by
    intro j _
    exact countP_filasRonda bye bal (1 + j) (rotarN j (equiposPad equipos0 n0 bye))
      (mitadDe n0) _
      (fun ab => decide ((ab.1 = p ∧ ab.2 = bye) ∨ (ab.1 = bye ∧ ab.2 = p)))
      (fun mesa ab => filaDe_desc_pred bye bal (1 + j) mesa ab p hpb)
  rw [Finset.sum_congr rfl hblock]
  exact total_pares_pad equipos0 n0 bye hlen hn hnd p bye
    (mem_equiposPad_of_mem equipos0 n0 bye p hp)
    (bye_mem_equiposPad equipos0 n0 bye hodd) hpb

theorem ronda_mem_preIda (equipos0 : List String) (n0 : Nat) (bal : Bool)
    (bye : String) (f : Fila) (h : f ∈ preIda equipos0 n0 bal bye) :
    1 ≤ f.ronda ∧ f.ronda ≤ rondasIda n0 := by
  rw [preIda] at h
  have := ronda_of_mem_idaAux bye bal (mitadDe n0) 1 (rondasIda n0) _ f h
  omega

/-- Claim C2: for every odd n (with n ≥ 2, hence n ≥ 3) the single
round-robin fixture has rounds exactly 1..n, `(n+1)/2` rows in each of
those rounds, exactly one BYE row per round, and every real participant
rests exactly once across the fixture. -/
theorem claim_C2_impar (n : Int) (names : Option (List String)) (bal : Bool)
    (bye : String) (hn : 2 ≤ n)
    (hfit : ∀ l, names = some l → (l.length : Int) = n)
    (hodd : n.toNat % 2 = 1)
    (hnd : (equiposDe n names).Nodup) (hbye : bye ∉ equiposDe n names) :
    ∃ out, generar_fixture n names false bal bye = Except.ok out ∧
      (∀ f ∈ out, 1 ≤ f.ronda ∧ f.ronda ≤ n.toNat) ∧
      (∀ r, 1 ≤ r → r ≤ n.toNat → cuentaRonda r out = (n.toNat + 1) / 2) ∧
      (∀ r, 1 ≤ r → r ≤ n.toNat → cuentaByeRonda r out = 1) ∧
      (∀ p ∈ equiposDe n names, cuentaDescansos p out = 1) := by
  have hlen := length_equiposDe n names hn hfit
  have hn0 : 2 ≤ n.toNat := by omega
  have hndp := nodup_equiposPad (equiposDe n names) n.toNat bye hnd hbye
  have hperm := nucleo_perm (equiposDe n names) n.toNat false bal bye
  rw [preTodo_false] at hperm
  have hr := rondasIda_odd n.toNat hodd
  have hm := mitadDe_odd n.toNat hodd
  refine ⟨_, generar_fixture_ok n names false bal bye hn hfit, ?_, ?_, ?_, ?_⟩
  · intro f hf
    have hf2 := hperm.mem_iff.mp hf
    have := ronda_mem_preIda (equiposDe n names) n.toNat bal bye f hf2
    omega
  · intro r h1 h2
    have htrans : cuentaRonda r (nucleo (equiposDe n names) n.toNat false bal bye) =
        cuentaRonda r (preIda (equiposDe n names) n.toNat bal bye) :=
      List.Perm.countP_eq _ hperm
    rw [htrans, cuentaRonda_preIda, if_pos ⟨h1, by omega⟩, hm]
  · intro r h1 h2
    have htrans : cuentaByeRonda r (nucleo (equiposDe n names) n.toNat false bal bye) =
        cuentaByeRonda r (preIda (equiposDe n names) n.toNat bal bye) :=
      List.Perm.countP_eq _ hperm
    rw [htrans, cuentaByeRonda_preIda_odd (equiposDe n names) n.toNat bal bye
      hlen hn0 hodd hndp, if_pos ⟨h1, by omega⟩]
  · intro p hp
    have htrans : cuentaDescansos p (nucleo (equiposDe n names) n.toNat false bal bye) =
        cuentaDescansos p (preIda (equiposDe n names) n.toNat bal bye) :=
      List.Perm.countP_eq _ hperm
    rw [htrans]
    exact cuentaDescansos_preIda (equiposDe n names) n.toNat bal bye hlen hn0 hodd
      hndp hbye p hp

/-- Witness for `claim_C2_impar`: `n = 5`, default names. -/
theorem claim_C2_impar_witness :
    ∃ out, generar_fixture 5 none false true BYE_LABEL = Except.ok out ∧
      (∀ f ∈ out, 1 ≤ f.ronda ∧ f.ronda ≤ (5 : Int).toNat) ∧
      (∀ r, 1 ≤ r → r ≤ (5 : Int).toNat →
        cuentaRonda r out = ((5 : Int).toNat + 1) / 2) ∧
      (∀ r, 1 ≤ r → r ≤ (5 : Int).toNat → cuentaByeRonda r out = 1) ∧
      (∀ p ∈ equiposDe 5 none, cuentaDescansos p out = 1) :=
  claim_C2_impar 5 none true BYE_LABEL (by decide) (fun l h => nomatch h)
    (by decide) (by decide) (by decide)

/-- Claim C3: for every even n ≥ 2 the single round-robin fixture has
rounds exactly 1..n-1, `n/2` rows per round, no BYE rows at all, and
total length `(n-1) * (n/2)`. -/
theorem claim_C3_par (n : Int) (names : Option (List String)) (bal : Bool)
    (bye : String) (hn : 2 ≤ n)
    (hfit : ∀ l, names = some l → (l.length : Int) = n)
    (heven : n.toNat % 2 = 0) (hbye : bye ∉ equiposDe n names) :
    ∃ out, generar_fixture n names false bal bye = Except.ok out ∧
      (∀ f ∈ out, 1 ≤ f.ronda ∧ f.ronda ≤ n.toNat - 1) ∧
      (∀ r, 1 ≤ r → r ≤ n.toNat - 1 → cuentaRonda r out = n.toNat / 2) ∧
      (∀ f ∈ out, f.nota ≠ "DESCANSA") ∧
      out.length = (n.toNat - 1) * (n.toNat / 2) := by
  have hlen := length_equiposDe n names hn hfit
  have hn0 : 2 ≤ n.toNat := by omega
  have hperm := nucleo_perm (equiposDe n names) n.toNat false bal bye
  rw [preTodo_false] at hperm
  have hr := rondasIda_even n.toNat heven
  have hm := mitadDe_even n.toNat heven
  refine ⟨_, generar_fixture_ok n names false bal bye hn hfit, ?_, ?_, ?_, ?_⟩
  · intro f hf
    have hf2 := hperm.mem_iff.mp hf
    have := ronda_mem_preIda (equiposDe n names) n.toNat bal bye f hf2
    omega
  · intro r h1 h2
    have htrans : cuentaRonda r (nucleo (equiposDe n names) n.toNat false bal bye) =
        cuentaRonda r (preIda (equiposDe n names) n.toNat bal bye) :=
      List.Perm.countP_eq _ hperm
    rw [htrans, cuentaRonda_preIda, if_pos ⟨h1, by omega⟩, hm]
  · intro f hf
    have hf2 := hperm.mem_iff.mp hf
    have hzero := countP_nota_preIda_even (equiposDe n names) n.toNat bal bye
      hlen hn0 heven hbye
    have hnot := List.countP_eq_zero.mp hzero f hf2
    intro hc
    apply hnot
    rw [hc]
    rfl
  · have hl : (nucleo (equiposDe n names) n.toNat false bal bye).length =
        (preIda (equiposDe n names) n.toNat bal bye).length := hperm.length_eq
    rw [hl, preIda, length_idaAux, hr, hm]

/-- Witness for `claim_C3_par`: `n = 4`, default names. -/
theorem claim_C3_par_witness :
    ∃ out, generar_fixture 4 none false true BYE_LABEL = Except.ok out ∧
      (∀ f ∈ out, 1 ≤ f.ronda ∧ f.ronda ≤ (4 : Int).toNat - 1) ∧
      (∀ r, 1 ≤ r → r ≤ (4 : Int).toNat - 1 →
        cuentaRonda r out = (4 : Int).toNat / 2) ∧
      (∀ f ∈ out, f.nota ≠ "DESCANSA") ∧
      out.length = ((4 : Int).toNat - 1) * ((4 : Int).toNat / 2) :=
  claim_C3_par 4 none true BYE_LABEL (by decide) (fun l h => nomatch h)
    (by decide) (by decide)

/-! ### The mirrored second leg -/

theorem espejo_ronda (R : Nat) (g : Fila) : (espejo R g).ronda = g.ronda + R := by
  rw [espejo]
  split
  · rfl
  · rfl

theorem espejo_mesa (R : Nat) (g : Fila) : (espejo R g).mesa = g.mesa := by
  rw [espejo]
  split
  · rfl
  · rfl

theorem rondasIda_pos (n0 : Nat) (hn : 2 ≤ n0) : 1 ≤ rondasIda n0 := by
  have := two_le_nPadded n0 hn
  rw [rondasIda]
  omega

/-- Claim C4: with `double_round` the output consists (up to the final
stable sort) of the single round-robin first leg plus exactly one
mirrored row per first-leg row, built by `espejo`: round shifted by the
first-leg round count, same table, home/away swapped for match rows, and
bye rows keeping home, empty away, same note.  All first-leg rounds lie
in `1..rondas` and all rounds of the double fixture in `1..2*rondas`. -/
theorem claim_C4_vuelta (n : Int) (names : Option (List String)) (bal : Bool)
    (bye : String) (hn : 2 ≤ n)
    (hfit : ∀ l, names = some l → (l.length : Int) = n) :
    ∃ out1 out2, generar_fixture n names false bal bye = Except.ok out1 ∧
      generar_fixture n names true bal bye = Except.ok out2 ∧
      out2.Perm (out1 ++ out1.map (espejo (rondasIda n.toNat))) ∧
      (∀ f ∈ out1, 1 ≤ f.ronda ∧ f.ronda ≤ rondasIda n.toNat) ∧
      (∀ f ∈ out2, 1 ≤ f.ronda ∧ f.ronda ≤ 2 * rondasIda n.toNat) := by
  have hn0 : 2 ≤ n.toNat := by omega
  have hperm1 := nucleo_perm (equiposDe n names) n.toNat false bal bye
  rw [preTodo_false] at hperm1
  have hperm2 := nucleo_perm (equiposDe n names) n.toNat true bal bye
  rw [preTodo_true] at hperm2
  have hR := rondasIda_pos n.toNat hn0
  refine ⟨_, _, generar_fixture_ok n names false bal bye hn hfit,
    generar_fixture_ok n names true bal bye hn hfit, ?_, ?_, ?_⟩
  · have hmap : ((nucleo (equiposDe n names) n.toNat false bal bye).map
        (espejo (rondasIda n.toNat))).Perm
        (vuelta (rondasIda n.toNat) (preIda (equiposDe n names) n.toNat bal bye)) := by
      rw [vuelta]
      exact hperm1.map _
    exact hperm2.trans ((hperm1.append hmap).symm)
  · intro f hf
    exact ronda_mem_preIda (equiposDe n names) n.toNat bal bye f (hperm1.mem_iff.mp hf)
  · intro f hf
    have hf2 := hperm2.mem_iff.mp hf
    rcases List.mem_append.mp hf2 with h1 | h1
    · have := ronda_mem_preIda (equiposDe n names) n.toNat bal bye f h1
      omega
    · rw [vuelta] at h1
      obtain ⟨g, hg, rfl⟩ := List.mem_map.mp h1
      have := ronda_mem_preIda (equiposDe n names) n.toNat bal bye g hg
      rw [espejo_ronda]
      omega

/-- Witness for `claim_C4_vuelta`: `n = 4`, default names. -/
theorem claim_C4_vuelta_witness :
    ∃ out1 out2, generar_fixture 4 none false true BYE_LABEL = Except.ok out1 ∧
      generar_fixture 4 none true true BYE_LABEL = Except.ok out2 ∧
      out2.Perm (out1 ++ out1.map (espejo (rondasIda (4 : Int).toNat))) ∧
      (∀ f ∈ out1, 1 ≤ f.ronda ∧ f.ronda ≤ rondasIda (4 : Int).toNat) ∧
      (∀ f ∈ out2, 1 ≤ f.ronda ∧ f.ronda ≤ 2 * rondasIda (4 : Int).toNat) :=
  claim_C4_vuelta 4 none true BYE_LABEL (by decide) (fun l h => nomatch h)

/-! ### The generated list is already sorted -/

theorem claveLE_trans (a b c : Fila) (h1 : claveLE a b = true)
    (h2 : claveLE b c = true) : claveLE a c = true := by
  simp only [claveLE, Bool.or_eq_true, Bool.and_eq_true, Nat.blt_eq, Nat.ble_eq,
    beq_iff_eq] at h1 h2 ⊢
  omega

theorem claveLE_total (a b : Fila) : (claveLE a b || claveLE b a) = true := by
  simp only [claveLE, Bool.or_eq_true, Bool.and_eq_true, Nat.blt_eq, Nat.ble_eq,
    beq_iff_eq]
  omega

theorem mesa_of_mem_conMesas (bye : String) (bal : Bool) (r mesa : Nat)
    (l : List (String × String)) (f : Fila) (h : f ∈ conMesas bye bal r mesa l) :
    f.ronda = r ∧ mesa ≤ f.mesa ∧ f.mesa < mesa + l.length := by
  obtain ⟨i, hi, rfl⟩ := (mem_conMesas bye bal r l mesa f).mp h
  rw [filaDe_ronda, filaDe_mesa]
  omega

theorem pairwise_conMesas (bye : String) (bal : Bool) (r : Nat) :
    ∀ (l : List (String × String)) (mesa : Nat),
      List.Pairwise (fun x y => claveLE x y = true) (conMesas bye bal r mesa l) := by
  intro l
  induction l with
  | nil => intro mesa; exact List.Pairwise.nil
  | cons ab resto ih =>
      intro mesa
      refine List.Pairwise.cons ?_ (ih (mesa + 1))
      intro g hg
      have hga := mesa_of_mem_conMesas bye bal r (mesa + 1) resto g hg
      simp only [claveLE, Bool.or_eq_true, Bool.and_eq_true, Nat.blt_eq, Nat.ble_eq,
        beq_iff_eq, filaDe_ronda, filaDe_mesa]
      omega

theorem pairwise_idaAux (bye : String) (bal : Bool) (mitad : Nat) :
    ∀ (k r : Nat) (w : List String),
      List.Pairwise (fun x y => claveLE x y = true) (idaAux bye bal mitad r k w) := by
  intro k
  induction k with
  | zero => intro r w; exact List.Pairwise.nil
  | succ k ih =>
      intro r w
      simp only [idaAux]
      rw [List.pairwise_append]
      refine ⟨pairwise_conMesas bye bal r _ 1, ih (r + 1) (rotar w), ?_⟩
      intro a ha b hb
      have h1 : a.ronda = r := ronda_of_mem_filasRonda bye bal r w mitad a ha
      have h2 := ronda_of_mem_idaAux bye bal mitad (r + 1) k (rotar w) b hb
      simp only [claveLE, Bool.or_eq_true, Bool.and_eq_true, Nat.blt_eq, Nat.ble_eq,
        beq_iff_eq]
      omega

theorem pairwise_preTodo (equipos0 : List String) (n0 : Nat) (dr bal : Bool)
    (bye : String) :
    List.Pairwise (fun x y => claveLE x y = true) (preTodo equipos0 n0 dr bal bye) := by
  cases dr with
  | false =>
      rw [preTodo_false]
      exact pairwise_idaAux bye bal (mitadDe n0) (rondasIda n0) 1 _
  | true =>
      rw [preTodo_true]
      rw [List.pairwise_append]
      refine ⟨pairwise_idaAux bye bal (mitadDe n0) (rondasIda n0) 1 _, ?_, ?_⟩
      · rw [vuelta]
        refine List.Pairwise.map (espejo (rondasIda n0)) ?_
          (pairwise_idaAux bye bal (mitadDe n0) (rondasIda n0) 1 _)
        intro a b hab
        simp only [claveLE, Bool.or_eq_true, Bool.and_eq_true, Nat.blt_eq,
          Nat.ble_eq, beq_iff_eq, espejo_ronda, espejo_mesa] at hab ⊢
        omega
      · intro a ha b hb
        have h1 := ronda_mem_preIda equipos0 n0 bal bye a ha
        rw [vuelta] at hb
        obtain ⟨g, hg, rfl⟩ := List.mem_map.mp hb
        have h2 := ronda_mem_preIda equipos0 n0 bal bye g hg
        simp only [claveLE, Bool.or_eq_true, Bool.and_eq_true, Nat.blt_eq,
          Nat.ble_eq, beq_iff_eq, espejo_ronda]
        omega

/-- The generation loop already emits rows sorted by `(ronda, mesa)`, so
the final sort is the identity. -/
theorem nucleo_eq_preTodo (equipos0 : List String) (n0 : Nat) (dr bal : Bool)
    (bye : String) :
    nucleo equipos0 n0 dr bal bye = preTodo equipos0 n0 dr bal bye := by
  rw [nucleo_eq]
  exact List.mergeSort_of_sorted (pairwise_preTodo equipos0 n0 dr bal bye)

/-! ### Round and table numbers are contiguous -/

theorem countP_fst_enumFrom (t : Nat) :
    ∀ (l : List (String × String)) (s : Nat),
      (List.enumFrom s l).countP (fun p => p.1 == t) =
        if s ≤ t ∧ t < s + l.length then 1 else 0 := by
  intro l
  induction l with
  | nil =>
      intro s
      simp
      split_ifs <;> omega
  | cons a resto ih =>
      intro s
      simp only [List.enumFrom, List.countP_cons, ih (s + 1), List.length_cons,
        beq_iff_eq]
      split_ifs <;> omega

theorem countP_mesa_filasRonda (bye : String) (bal : Bool) (r : Nat)
    (w : List String) (mitad t : Nat) :
    (filasRonda bye bal r w mitad).countP (fun f => f.mesa == t) =
      if 1 ≤ t ∧ t ≤ mitad then 1 else 0 := by
  rw [filasRonda, conMesas_eq_enumFrom, List.countP_map]
  have hcong : List.countP
      ((fun f => f.mesa == t) ∘ fun p => filaDe bye bal r p.1 p.2)
      (List.enumFrom 1 (pares w mitad)) =
      List.countP (fun p => p.1 == t) (List.enumFrom 1 (pares w mitad)) := by
    apply List.countP_congr
    intro p _
    show ((filaDe bye bal r p.1 p.2).mesa == t) = true ↔ (p.1 == t) = true
    rw [filaDe_mesa]
  rw [hcong, countP_fst_enumFrom t (pares w mitad) 1, length_pares]
  split_ifs <;> omega

theorem cuentaMesa_preIda (equipos0 : List String) (n0 : Nat) (bal : Bool)
    (bye : String) (r t : Nat) :
    cuentaMesa r t (preIda equipos0 n0 bal bye) =
      if (1 ≤ r ∧ r ≤ rondasIda n0) ∧ (1 ≤ t ∧ t ≤ mitadDe n0) then 1 else 0 := by
  rw [cuentaMesa, preIda]
  rw [countP_ronda_idaAux bye bal (mitadDe n0) (rondasIda n0) r _
    (fun f => f.mesa == t)]
  by_cases h : 1 ≤ r ∧ r ≤ rondasIda n0
  · rw [if_pos h, countP_mesa_filasRonda]
    by_cases h2 : 1 ≤ t ∧ t ≤ mitadDe n0
    · rw [if_pos h2, if_pos ⟨h, h2⟩]
    · rw [if_neg h2, if_neg (by tauto)]
  · rw [if_neg h, if_neg (by tauto)]

theorem mesa_mem_preIda (equipos0 : List String) (n0 : Nat) (bal : Bool)
    (bye : String) (f : Fila) (h : f ∈ preIda equipos0 n0 bal bye) :
    1 ≤ f.mesa ∧ f.mesa ≤ mitadDe n0 := by
  rw [preIda] at h
  obtain ⟨j, hj, hf⟩ := (mem_idaAux bye bal (mitadDe n0) (rondasIda n0) 1 _ f).mp h
  have := mesa_of_mem_conMesas bye bal (1 + j) 1 _ f hf
  rw [length_pares] at this
  omega

theorem cuentaMesa_vuelta_alto (R : Nat) (F : List Fila) (r t : Nat) (hr : R < r) :
    cuentaMesa r t (vuelta R F) = cuentaMesa (r - R) t F := by
  rw [cuentaMesa, vuelta, List.countP_map, cuentaMesa]
  apply List.countP_congr
  intro g _
  show ((espejo R g).ronda == r && (espejo R g).mesa == t) = true ↔
    (g.ronda == r - R && g.mesa == t) = true
  rw [espejo_ronda, espejo_mesa]
  simp only [Bool.and_eq_true, beq_iff_eq]
  constructor
  · rintro ⟨h1, h2⟩
    exact ⟨by omega, h2⟩
  · rintro ⟨h1, h2⟩
    exact ⟨by omega, h2⟩

theorem cuentaMesa_vuelta_bajo (R : Nat) (F : List Fila) (r t : Nat) (hr : r ≤ R)
    (hpos : ∀ f ∈ F, 1 ≤ f.ronda) :
    cuentaMesa r t (vuelta R F) = 0 := by
  rw [cuentaMesa, vuelta, List.countP_map, List.countP_eq_zero]
  intro g hg
  show ¬((espejo R g).ronda == r && (espejo R g).mesa == t) = true
  rw [espejo_ronda, espejo_mesa]
  simp only [Bool.and_eq_true, beq_iff_eq]
  rintro ⟨h1, _⟩
  have := hpos g hg
  omega

/-- Claim C7: the returned sequence is sorted ascending by
`(ronda, mesa)`; rounds run contiguously from 1 to the total round
count and tables from 1 to the per-round table count, each combination
appearing exactly once. -/
theorem claim_C7_orden (n : Int) (names : Option (List String)) (dr bal : Bool)
    (bye : String) (hn : 2 ≤ n)
    (hfit : ∀ l, names = some l → (l.length : Int) = n) :
    ∃ out, generar_fixture n names dr bal bye = Except.ok out ∧
      List.Pairwise (fun x y => claveLE x y = true) out ∧
      (∀ f ∈ out, 1 ≤ f.ronda ∧
        f.ronda ≤ (if dr then 2 * rondasIda n.toNat else rondasIda n.toNat) ∧
        1 ≤ f.mesa ∧ f.mesa ≤ mitadDe n.toNat) ∧
      (∀ r t, 1 ≤ r →
        r ≤ (if dr then 2 * rondasIda n.toNat else rondasIda n.toNat) →
        1 ≤ t → t ≤ mitadDe n.toNat → cuentaMesa r t out = 1) := by
  have hn0 : 2 ≤ n.toNat := by omega
  have hEq := nucleo_eq_preTodo (equiposDe n names) n.toNat dr bal bye
  have hpos : ∀ f ∈ preIda (equiposDe n names) n.toNat bal bye, 1 ≤ f.ronda :=
    fun f hf => (ronda_mem_preIda (equiposDe n names) n.toNat bal bye f hf).1
  refine ⟨_, generar_fixture_ok n names dr bal bye hn hfit, ?_, ?_, ?_⟩
  · rw [hEq]
    exact pairwise_preTodo (equiposDe n names) n.toNat dr bal bye
  · intro f hf
    rw [hEq] at hf
    cases dr with
    | false =>
        rw [preTodo_false] at hf
        have h1 := ronda_mem_preIda (equiposDe n names) n.toNat bal bye f hf
        have h2 := mesa_mem_preIda (equiposDe n names) n.toNat bal bye f hf
        exact ⟨h1.1, h1.2, h2.1, h2.2⟩
    | true =>
        rw [preTodo_true] at hf
        rcases List.mem_append.mp hf with h1 | h1
        · have ha := ronda_mem_preIda (equiposDe n names) n.toNat bal bye f h1
          have hb := mesa_mem_preIda (equiposDe n names) n.toNat bal bye f h1
          refine ⟨ha.1, ?_, hb.1, hb.2⟩
          show f.ronda ≤ 2 * rondasIda n.toNat
          omega
        · rw [vuelta] at h1
          obtain ⟨g, hg, rfl⟩ := List.mem_map.mp h1
          have ha := ronda_mem_preIda (equiposDe n names) n.toNat bal bye g hg
          have hb := mesa_mem_preIda (equiposDe n names) n.toNat bal bye g hg
          rw [espejo_ronda, espejo_mesa]
          refine ⟨by omega, ?_, hb.1, hb.2⟩
          show g.ronda + rondasIda n.toNat ≤ 2 * rondasIda n.toNat
          omega
  · intro r t hr1 hr2 ht1 ht2
    rw [hEq]
    cases dr with
    | false =>
        rw [preTodo_false, cuentaMesa_preIda]
        have hr2a : r ≤ rondasIda n.toNat := hr2
        rw [if_pos ⟨⟨hr1, hr2a⟩, ⟨ht1, ht2⟩⟩]
    | true =>
        rw [preTodo_true]
        have hsplit : cuentaMesa r t
            (preIda (equiposDe n names) n.toNat bal bye ++
              vuelta (rondasIda n.toNat) (preIda (equiposDe n names) n.toNat bal bye)) =
            cuentaMesa r t (preIda (equiposDe n names) n.toNat bal bye) +
            cuentaMesa r t (vuelta (rondasIda n.toNat)
              (preIda (equiposDe n names) n.toNat bal bye)) := by
          rw [cuentaMesa, List.countP_append]
          rfl
        rw [hsplit]
        have hr2a : r ≤ 2 * rondasIda n.toNat := hr2
        by_cases hcase : r ≤ rondasIda n.toNat
        · rw [cuentaMesa_preIda, if_pos ⟨⟨hr1, hcase⟩, ⟨ht1, ht2⟩⟩,
            cuentaMesa_vuelta_bajo _ _ r t hcase hpos]
        · rw [cuentaMesa_preIda, if_neg (by tauto),
            cuentaMesa_vuelta_alto _ _ r t (by omega), cuentaMesa_preIda,
            if_pos ⟨⟨by omega, by omega⟩, ⟨ht1, ht2⟩⟩]

/-- Witness for `claim_C7_orden`: `n = 5`, double round-robin. -/
theorem claim_C7_orden_witness :
    ∃ out, generar_fixture 5 none true true BYE_LABEL = Except.ok out ∧
      List.Pairwise (fun x y => claveLE x y = true) out ∧
      (∀ f ∈ out, 1 ≤ f.ronda ∧
        f.ronda ≤ (if true then 2 * rondasIda (5 : Int).toNat
          else rondasIda (5 : Int).toNat) ∧
        1 ≤ f.mesa ∧ f.mesa ≤ mitadDe (5 : Int).toNat) ∧
      (∀ r t, 1 ≤ r →
        r ≤ (if true then 2 * rondasIda (5 : Int).toNat
          else rondasIda (5 : Int).toNat) →
        1 ≤ t → t ≤ mitadDe (5 : Int).toNat → cuentaMesa r t out = 1) :=
  claim_C7_orden 5 none true true BYE_LABEL (by decide) (fun l h => nomatch h)

/-! ### Each participant appears once per round -/

theorem countP_aparece_block_real (equipos0 : List String) (n0 : Nat) (bal : Bool)
    (bye : String) (hlen : equipos0.length = n0) (hn : 2 ≤ n0)
    (hnd : (equiposPad equipos0 n0 bye).Nodup) (r j : Nat)
    (lbl : String) (hlbl : lbl ∈ equiposPad equipos0 n0 bye)
    (hl0 : lbl ≠ "") (hlb : lbl ≠ bye) :
    (filasRonda bye bal r (rotarN j (equiposPad equipos0 n0 bye))
      (mitadDe n0)).countP (apareceEn lbl) = 1 := by
  rw [countP_block_to_mirror equipos0 n0 bal bye hlen hn r j _
    (fun a b => a = lbl ∨ b = lbl)
    (fun mesa ab => filaDe_aparece_pred bye bal r mesa ab lbl hl0 hlb)]
  apply countP_mirror_mem
  · rw [rotarN_pad_length equipos0 n0 bye hlen hn j]
    exact even_nPadded n0
  · exact rotarN_pad_nodup equipos0 n0 bye hlen hn j hnd
  · rw [rotarN_pad_mem equipos0 n0 bye hlen hn j]
    exact hlbl

theorem countP_aparece_block_bye (equipos0 : List String) (n0 : Nat) (bal : Bool)
    (bye : String) (hlen : equipos0.length = n0) (hn : 2 ≤ n0)
    (hnd : (equiposPad equipos0 n0 bye).Nodup) (hbne : bye ≠ "") (r j : Nat) :
    (filasRonda bye bal r (rotarN j (equiposPad equipos0 n0 bye))
      (mitadDe n0)).countP (apareceEn bye) = 0 := by
  rw [List.countP_eq_zero]
  intro f hf
  obtain ⟨i, hi, rfl⟩ :=
    (mem_filasRonda bye bal r (rotarN j (equiposPad equipos0 n0 bye))
      (mitadDe n0) f).mp hf
  have hw : (rotarN j (equiposPad equipos0 n0 bye)).length = nPadded n0 :=
    rotarN_pad_length equipos0 n0 bye hlen hn j
  have h2 : 2 ≤ nPadded n0 := two_le_nPadded n0 hn
  have heven := even_nPadded n0
  rw [mitadDe] at hi
  have hnic : i < (rotarN j (equiposPad equipos0 n0 bye)).length := by omega
  have hj2 : (rotarN j (equiposPad equipos0 n0 bye)).length - (i + 1) <
      (rotarN j (equiposPad equipos0 n0 bye)).length := by omega
  have hne_idx : i ≠ (rotarN j (equiposPad equipos0 n0 bye)).length - (i + 1) := by
    omega
  have hab : (rotarN j (equiposPad equipos0 n0 bye)).getD i "" ≠
      (rotarN j (equiposPad equipos0 n0 bye)).getD
        ((rotarN j (equiposPad equipos0 n0 bye)).length - (i + 1)) "" :=
    fun hc => hne_idx (getD_inj _ (rotarN_pad_nodup equipos0 n0 bye hlen hn j hnd)
      hnic hj2 hc)
  by_cases hcase : (rotarN j (equiposPad equipos0 n0 bye)).getD i "" = bye ∨
      (rotarN j (equiposPad equipos0 n0 bye)).getD
        ((rotarN j (equiposPad equipos0 n0 bye)).length - (i + 1)) "" = bye
  · rw [filaDe_bye_eq _ _ _ _ _ _ hcase]
    simp only [apareceEn, Bool.or_eq_true, beq_iff_eq]
    rintro (h1 | h1)
    · by_cases hb : (rotarN j (equiposPad equipos0 n0 bye)).getD
          ((rotarN j (equiposPad equipos0 n0 bye)).length - (i + 1)) "" = bye
      · rw [if_pos hb] at h1
        exact hab (h1.trans hb.symm)
      · rw [if_neg hb] at h1
        exact hb h1
    · exact hbne h1.symm
  · by_cases hbal : bal ∧ r % 2 = 0
    · rw [filaDe_swap_eq _ _ _ _ _ _ hcase hbal]
      simp only [apareceEn, Bool.or_eq_true, beq_iff_eq]
      rintro (h1 | h1)
      · exact hcase (Or.inr h1)
      · exact hcase (Or.inl h1)
    · rw [filaDe_plain_eq _ _ _ _ _ _ hcase hbal]
      simp only [apareceEn, Bool.or_eq_true, beq_iff_eq]
      rintro (h1 | h1)
      · exact hcase (Or.inl h1)
      · exact hcase (Or.inr h1)

theorem cuentaEnRonda_preIda_real (equipos0 : List String) (n0 : Nat) (bal : Bool)
    (bye : String) (hlen : equipos0.length = n0) (hn : 2 ≤ n0)
    (hnd : (equiposPad equipos0 n0 bye).Nodup) (r : Nat)
    (lbl : String) (hlbl : lbl ∈ equiposPad equipos0 n0 bye)
    (hl0 : lbl ≠ "") (hlb : lbl ≠ bye) :
    cuentaEnRonda r lbl (preIda equipos0 n0 bal bye) =
      if 1 ≤ r ∧ r ≤ rondasIda n0 then 1 else 0 := by
  rw [cuentaEnRonda, preIda, countP_ronda_idaAux]
  by_cases h : 1 ≤ r ∧ r ≤ rondasIda n0
  · rw [if_pos h, if_pos h]
    exact countP_aparece_block_real equipos0 n0 bal bye hlen hn hnd r (r - 1)
      lbl hlbl hl0 hlb
  · rw [if_neg h, if_neg h]

theorem cuentaEnRonda_preIda_bye (equipos0 : List String) (n0 : Nat) (bal : Bool)
    (bye : String) (hlen : equipos0.length = n0) (hn : 2 ≤ n0)
    (hnd : (equiposPad equipos0 n0 bye).Nodup) (hbne : bye ≠ "") (r : Nat) :
    cuentaEnRonda r bye (preIda equipos0 n0 bal bye) = 0 := by
  rw [cuentaEnRonda, preIda, countP_ronda_idaAux]
  by_cases h : 1 ≤ r ∧ r ≤ rondasIda n0
  · rw [if_pos h]
    exact countP_aparece_block_bye equipos0 n0 bal bye hlen hn hnd hbne r (r - 1)
  · rw [if_neg h]

theorem aparece_espejo (R : Nat) (lbl : String) (f : Fila)
    (hshape : f.nota = "" ∨ (f.nota = "DESCANSA" ∧ f.visita = "")) :
    apareceEn lbl (espejo R f) = apareceEn lbl f := by
  rcases hshape with hn | ⟨hn, hv⟩
  · rw [espejo, if_neg (by rw [hn]; decide)]
    simp only [apareceEn]
    exact Bool.or_comm _ _
  · rw [espejo, if_pos hn]
    simp only [apareceEn]
    rw [hv]

theorem cuentaEnRonda_vuelta_alto (R : Nat) (F : List Fila) (r : Nat) (lbl : String)
    (hr : R < r)
    (hshape : ∀ f ∈ F, f.nota = "" ∨ (f.nota = "DESCANSA" ∧ f.visita = "")) :
    cuentaEnRonda r lbl (vuelta R F) = cuentaEnRonda (r - R) lbl F := by
  rw [cuentaEnRonda, vuelta, List.countP_map, cuentaEnRonda]
  apply List.countP_congr
  intro g hg
  show ((espejo R g).ronda == r && apareceEn lbl (espejo R g)) = true ↔
    (g.ronda == r - R && apareceEn lbl g) = true
  rw [espejo_ronda, aparece_espejo R lbl g (hshape g hg)]
  simp only [Bool.and_eq_true, beq_iff_eq]
  constructor
  · rintro ⟨h1, h2⟩
    exact ⟨by omega, h2⟩
  · rintro ⟨h1, h2⟩
    exact ⟨by omega, h2⟩

theorem cuentaEnRonda_vuelta_bajo (R : Nat) (F : List Fila) (r : Nat) (lbl : String)
    (hr : r ≤ R) (hpos : ∀ f ∈ F, 1 ≤ f.ronda) :
    cuentaEnRonda r lbl (vuelta R F) = 0 := by
  rw [cuentaEnRonda, vuelta, List.countP_map, List.countP_eq_zero]
  intro g hg
  show ¬((espejo R g).ronda == r && apareceEn lbl (espejo R g)) = true
  rw [espejo_ronda]
  simp only [Bool.and_eq_true, beq_iff_eq]
  rintro ⟨h1, _⟩
  have := hpos g hg
  omega

theorem pares_exactamente_uno (equipos0 : List String) (n0 : Nat) (bye : String)
    (hlen : equipos0.length = n0) (hn : 2 ≤ n0)
    (hnd : (equiposPad equipos0 n0 bye).Nodup) (j : Nat)
    (x : String) (hx : x ∈ equiposPad equipos0 n0 bye) :
    (pares (rotarN j (equiposPad equipos0 n0 bye)) (mitadDe n0)).countP
      (fun ab => ab.1 == x || ab.2 == x) = 1 := by
  rw [countP_pares]
  have hconv : (List.range (mitadDe n0)).countP
      (fun i => ((rotarN j (equiposPad equipos0 n0 bye)).getD i "" == x ||
        (rotarN j (equiposPad equipos0 n0 bye)).getD
          ((rotarN j (equiposPad equipos0 n0 bye)).length - (i + 1)) "" == x)) =
      (List.range (mitadDe n0)).countP
        (fun i => decide ((rotarN j (equiposPad equipos0 n0 bye)).getD i "" = x ∨
          (rotarN j (equiposPad equipos0 n0 bye)).getD
            ((rotarN j (equiposPad equipos0 n0 bye)).length - (i + 1)) "" = x)) := by
    apply List.countP_congr
    intro i _
    simp
  rw [hconv]
  have hm : mitadDe n0 = (rotarN j (equiposPad equipos0 n0 bye)).length / 2 := by
    rw [rotarN_pad_length equipos0 n0 bye hlen hn j, mitadDe]
  rw [hm]
  apply countP_mirror_mem
  · rw [rotarN_pad_length equipos0 n0 bye hlen hn j]
    exact even_nPadded n0
  · exact rotarN_pad_nodup equipos0 n0 bye hlen hn j hnd
  · rw [rotarN_pad_mem equipos0 n0 bye hlen hn j]
    exact hx

/-- Claim C5: within any round of the returned fixture each participant
label of the padded set occurs in at most one row; each real participant
occurs in exactly one row of every round of the fixture; and at the
pairing level every member of the padded working list (the synthetic bye
included) is scheduled at exactly one table of every round. -/
theorem claim_C5_ronda (n : Int) (names : Option (List String)) (dr bal : Bool)
    (bye : String) (hn : 2 ≤ n)
    (hfit : ∀ l, names = some l → (l.length : Int) = n)
    (hnd : (equiposDe n names).Nodup) (hbye : bye ∉ equiposDe n names)
    (hbne : bye ≠ "") (hvac : "" ∉ equiposDe n names) :
    ∃ out, generar_fixture n names dr bal bye = Except.ok out ∧
      (∀ lbl ∈ equiposPad (equiposDe n names) n.toNat bye, ∀ r,
        cuentaEnRonda r lbl out ≤ 1) ∧
      (∀ p ∈ equiposDe n names, ∀ r, 1 ≤ r →
        r ≤ (if dr then 2 * rondasIda n.toNat else rondasIda n.toNat) →
        cuentaEnRonda r p out = 1) ∧
      (∀ j x, x ∈ equiposPad (equiposDe n names) n.toNat bye →
        (pares (rotarN j (equiposPad (equiposDe n names) n.toNat bye))
          (mitadDe n.toNat)).countP (fun ab => ab.1 == x || ab.2 == x) = 1) := by
  have hlen := length_equiposDe n names hn hfit
  have hn0 : 2 ≤ n.toNat := by omega
  have hndp := nodup_equiposPad (equiposDe n names) n.toNat bye hnd hbye
  have hEq := nucleo_eq_preTodo (equiposDe n names) n.toNat dr bal bye
  have hshape := forma_fila_preIda (equiposDe n names) n.toNat bal bye
  have hpos : ∀ f ∈ preIda (equiposDe n names) n.toNat bal bye, 1 ≤ f.ronda :=
    fun f hf => (ronda_mem_preIda (equiposDe n names) n.toNat bal bye f hf).1
  have hsplit : ∀ lbl r, cuentaEnRonda r lbl
      (preIda (equiposDe n names) n.toNat bal bye ++
        vuelta (rondasIda n.toNat) (preIda (equiposDe n names) n.toNat bal bye)) =
      cuentaEnRonda r lbl (preIda (equiposDe n names) n.toNat bal bye) +
      cuentaEnRonda r lbl (vuelta (rondasIda n.toNat)
        (preIda (equiposDe n names) n.toNat bal bye)) := by
    intro lbl r
    rw [cuentaEnRonda, List.countP_append]
    rfl
  have hreal : ∀ lbl, lbl ∈ equiposPad (equiposDe n names) n.toNat bye → lbl ≠ "" →
      lbl ≠ bye → ∀ r,
      cuentaEnRonda r lbl (nucleo (equiposDe n names) n.toNat dr bal bye) =
        if 1 ≤ r ∧ r ≤ (if dr then 2 * rondasIda n.toNat else rondasIda n.toNat)
        then 1 else 0 := by
    intro lbl hlbl hl0 hlb r
    rw [hEq]
    cases dr with
    | false =>
        have he : (if false then 2 * rondasIda n.toNat else rondasIda n.toNat) =
            rondasIda n.toNat := rfl
        rw [he, preTodo_false,
          cuentaEnRonda_preIda_real (equiposDe n names) n.toNat bal bye hlen hn0
            hndp r lbl hlbl hl0 hlb]
    | true =>
        have he : (if true then 2 * rondasIda n.toNat else rondasIda n.toNat) =
            2 * rondasIda n.toNat := rfl
        rw [he, preTodo_true, hsplit]
        by_cases hcase : r ≤ rondasIda n.toNat
        · rw [cuentaEnRonda_preIda_real (equiposDe n names) n.toNat bal bye hlen hn0
            hndp r lbl hlbl hl0 hlb,
            cuentaEnRonda_vuelta_bajo _ _ r lbl hcase hpos]
          split_ifs <;> omega
        · rw [cuentaEnRonda_preIda_real (equiposDe n names) n.toNat bal bye hlen hn0
            hndp r lbl hlbl hl0 hlb,
            cuentaEnRonda_vuelta_alto _ _ r lbl (by omega) hshape,
            cuentaEnRonda_preIda_real (equiposDe n names) n.toNat bal bye hlen hn0
              hndp (r - rondasIda n.toNat) lbl hlbl hl0 hlb]
          split_ifs <;> omega
  have hbye0 : ∀ r, cuentaEnRonda r bye
      (nucleo (equiposDe n names) n.toNat dr bal bye) = 0 := by
    intro r
    rw [hEq]
    cases dr with
    | false =>
        rw [preTodo_false,
          cuentaEnRonda_preIda_bye (equiposDe n names) n.toNat bal bye hlen hn0
            hndp hbne r]
    | true =>
        rw [preTodo_true, hsplit,
          cuentaEnRonda_preIda_bye (equiposDe n names) n.toNat bal bye hlen hn0
            hndp hbne r]
        by_cases hcase : r ≤ rondasIda n.toNat
        · rw [cuentaEnRonda_vuelta_bajo _ _ r bye hcase hpos]
        · rw [cuentaEnRonda_vuelta_alto _ _ r bye (by omega) hshape,
            cuentaEnRonda_preIda_bye (equiposDe n names) n.toNat bal bye hlen hn0
              hndp hbne (r - rondasIda n.toNat)]
  refine ⟨_, generar_fixture_ok n names dr bal bye hn hfit, ?_, ?_, ?_⟩
  · intro lbl hlbl r
    rcases (mem_equiposPad_iff (equiposDe n names) n.toNat bye lbl).mp hlbl with
      hE | ⟨hoddc, rfl⟩
    · have hl0 : lbl ≠ "" := fun h => hvac (h ▸ hE)
      have hlb : lbl ≠ bye := fun h => hbye (h ▸ hE)
      rw [hreal lbl hlbl hl0 hlb r]
      split_ifs <;> omega
    · rw [hbye0 r]
      omega
  · intro p hp r h1 h2
    have hl0 : p ≠ "" := fun h => hvac (h ▸ hp)
    have hlb : p ≠ bye := fun h => hbye (h ▸ hp)
    rw [hreal p (mem_equiposPad_of_mem (equiposDe n names) n.toNat bye p hp)
      hl0 hlb r, if_pos ⟨h1, h2⟩]
  · intro j x hx
    exact pares_exactamente_uno (equiposDe n names) n.toNat bye hlen hn0 hndp j x hx

/-- Witness for `claim_C5_ronda`: `n = 5`, double round-robin. -/
theorem claim_C5_ronda_witness :
    ∃ out, generar_fixture 5 none true true BYE_LABEL = Except.ok out ∧
      (∀ lbl ∈ equiposPad (equiposDe 5 none) (5 : Int).toNat BYE_LABEL, ∀ r,
        cuentaEnRonda r lbl out ≤ 1) ∧
      (∀ p ∈ equiposDe 5 none, ∀ r, 1 ≤ r →
        r ≤ (if true then 2 * rondasIda (5 : Int).toNat
          else rondasIda (5 : Int).toNat) →
        cuentaEnRonda r p out = 1) ∧
      (∀ j x, x ∈ equiposPad (equiposDe 5 none) (5 : Int).toNat BYE_LABEL →
        (pares (rotarN j (equiposPad (equiposDe 5 none) (5 : Int).toNat BYE_LABEL))
          (mitadDe (5 : Int).toNat)).countP (fun ab => ab.1 == x || ab.2 == x) = 1) :=
  claim_C5_ronda 5 none true true BYE_LABEL (by decide) (fun l h => nomatch h)
    (by decide) (by decide) (by decide) (by decide)

/-! ### The BYE note is the literal string -/

theorem forma_fila_preTodo (equipos0 : List String) (n0 : Nat) (dr bal : Bool)
    (bye : String) (f : Fila) (h : f ∈ preTodo equipos0 n0 dr bal bye) :
    f.nota = "" ∨ (f.nota = "DESCANSA" ∧ f.visita = "") := by
  cases dr with
  | false =>
      rw [preTodo_false] at h
      exact forma_fila_preIda equipos0 n0 bal bye f h
  | true =>
      rw [preTodo_true] at h
      rcases List.mem_append.mp h with h1 | h1
      · exact forma_fila_preIda equipos0 n0 bal bye f h1
      · rw [vuelta] at h1
        obtain ⟨g, hg, rfl⟩ := List.mem_map.mp h1
        rcases forma_fila_preIda equipos0 n0 bal bye g hg with hn2 | ⟨hn2, hv⟩
        · left
          rw [espejo, if_neg (by rw [hn2]; decide)]
        · right
          rw [espejo, if_pos hn2]
          exact ⟨rfl, rfl⟩

theorem descansa_real_preIda (equipos0 : List String) (n0 : Nat) (bal : Bool)
    (bye : String) (hlen : equipos0.length = n0) (hn : 2 ≤ n0)
    (hnd : (equiposPad equipos0 n0 bye).Nodup) (f : Fila)
    (h : f ∈ preIda equipos0 n0 bal bye) (hD : f.nota = "DESCANSA") :
    f.locl ∈ equipos0 ∧ f.visita = "" := by
  rw [preIda] at h
  obtain ⟨j, hj, hf⟩ :=
    (mem_idaAux bye bal (mitadDe n0) (rondasIda n0) 1 _ f).mp h
  obtain ⟨i, hi, rfl⟩ :=
    (mem_filasRonda bye bal (1 + j) _ (mitadDe n0) f).mp hf
  have hw : (rotarN j (equiposPad equipos0 n0 bye)).length = nPadded n0 :=
    rotarN_pad_length equipos0 n0 bye hlen hn j
  have h2 : 2 ≤ nPadded n0 := two_le_nPadded n0 hn
  have heven := even_nPadded n0
  rw [mitadDe] at hi
  have hnic : i < (rotarN j (equiposPad equipos0 n0 bye)).length := by omega
  have hj2 : (rotarN j (equiposPad equipos0 n0 bye)).length - (i + 1) <
      (rotarN j (equiposPad equipos0 n0 bye)).length := by omega
  have hne_idx : i ≠ (rotarN j (equiposPad equipos0 n0 bye)).length - (i + 1) := by
    omega
  have hab : (rotarN j (equiposPad equipos0 n0 bye)).getD i "" ≠
      (rotarN j (equiposPad equipos0 n0 bye)).getD
        ((rotarN j (equiposPad equipos0 n0 bye)).length - (i + 1)) "" :=
    fun hc => hne_idx (getD_inj _ (rotarN_pad_nodup equipos0 n0 bye hlen hn j hnd)
      hnic hj2 hc)
  have hmema : (rotarN j (equiposPad equipos0 n0 bye)).getD i "" ∈
      equiposPad equipos0 n0 bye := by
    rw [← rotarN_pad_mem equipos0 n0 bye hlen hn j,
      List.getD_eq_getElem _ _ hnic]
    exact List.getElem_mem _
  have hmemb : (rotarN j (equiposPad equipos0 n0 bye)).getD
      ((rotarN j (equiposPad equipos0 n0 bye)).length - (i + 1)) "" ∈
      equiposPad equipos0 n0 bye := by
    rw [← rotarN_pad_mem equipos0 n0 bye hlen hn j,
      List.getD_eq_getElem _ _ hj2]
    exact List.getElem_mem _
  by_cases hcase : (rotarN j (equiposPad equipos0 n0 bye)).getD i "" = bye ∨
      (rotarN j (equiposPad equipos0 n0 bye)).getD
        ((rotarN j (equiposPad equipos0 n0 bye)).length - (i + 1)) "" = bye
  · rw [filaDe_bye_eq _ _ _ _ _ _ hcase]
    refine ⟨?_, rfl⟩
    by_cases hb : (rotarN j (equiposPad equipos0 n0 bye)).getD
        ((rotarN j (equiposPad equipos0 n0 bye)).length - (i + 1)) "" = bye
    · rw [if_pos hb]
      have hanb : (rotarN j (equiposPad equipos0 n0 bye)).getD i "" ≠ bye :=
        fun hc => hab (hc.trans hb.symm)
      rcases (mem_equiposPad_iff equipos0 n0 bye _).mp hmema with hE | ⟨_, hc⟩
      · exact hE
      · exact absurd hc hanb
    · rw [if_neg hb]
      rcases (mem_equiposPad_iff equipos0 n0 bye _).mp hmemb with hE | ⟨_, hc⟩
      · exact hE
      · exact absurd hc hb
  · exfalso
    by_cases hbal : bal ∧ (1 + j) % 2 = 0
    · rw [filaDe_swap_eq _ _ _ _ _ _ hcase hbal] at hD
      simp at hD
    · rw [filaDe_plain_eq _ _ _ _ _ _ hcase hbal] at hD
      simp at hD

theorem existe_descanso_preIda (equipos0 : List String) (n0 : Nat) (bal : Bool)
    (bye : String) (hlen : equipos0.length = n0) (hn : 2 ≤ n0)
    (hodd : n0 % 2 = 1) :
    ∃ f ∈ preIda equipos0 n0 bal bye, f.nota = "DESCANSA" := by
  have hpad := equiposPad_odd equipos0 n0 bye hodd
  have hlenp : (equiposPad equipos0 n0 bye).length = n0 + 1 := by
    rw [hpad]
    simp [hlen]
  have hb : (equiposPad equipos0 n0 bye).getD
      ((equiposPad equipos0 n0 bye).length - (0 + 1)) "" = bye := by
    have he : (equiposPad equipos0 n0 bye).length - (0 + 1) = n0 := by omega
    rw [he, hpad]
    rw [List.getD_eq_getElem _ _
      (by simp only [List.length_append, List.length_singleton]; omega)]
    rw [List.getElem_append_right (by omega : equipos0.length ≤ n0)]
    simp [hlen]
  refine ⟨filaDe bye bal (1 + 0) (1 + 0)
      ((equiposPad equipos0 n0 bye).getD 0 "",
       (equiposPad equipos0 n0 bye).getD
         ((equiposPad equipos0 n0 bye).length - (0 + 1)) ""), ?_, ?_⟩
  · rw [preIda]
    apply (mem_idaAux bye bal (mitadDe n0) (rondasIda n0) 1 _ _).mpr
    refine ⟨0, ?_, ?_⟩
    · rw [rondasIda_odd n0 hodd]
      omega
    · apply (mem_filasRonda bye bal (1 + 0) _ (mitadDe n0) _).mpr
      refine ⟨0, ?_, rfl⟩
      rw [mitadDe_odd n0 hodd]
      omega
  · rw [filaDe_bye_eq _ _ _ _ _ _ (Or.inr hb)]

/-- Claim C10: every row's note is either empty or the literal
`"DESCANSA"`, whatever `bye_label` is; under valid inputs every BYE row
carries a real participant as home and an empty away; and for odd n BYE
rows do exist. -/
theorem claim_C10_nota_literal (n : Int) (names : Option (List String))
    (dr bal : Bool) (bye : String) (hn : 2 ≤ n)
    (hfit : ∀ l, names = some l → (l.length : Int) = n) :
    ∃ out, generar_fixture n names dr bal bye = Except.ok out ∧
      (∀ f ∈ out, f.nota = "" ∨ f.nota = "DESCANSA") ∧
      ((equiposDe n names).Nodup → bye ∉ equiposDe n names →
        ∀ f ∈ out, f.nota = "DESCANSA" →
          f.locl ∈ equiposDe n names ∧ f.visita = "") ∧
      (n.toNat % 2 = 1 → ∃ f ∈ out, f.nota = "DESCANSA") := by
  have hn0 : 2 ≤ n.toNat := by omega
  have hEq := nucleo_eq_preTodo (equiposDe n names) n.toNat dr bal bye
  refine ⟨_, generar_fixture_ok n names dr bal bye hn hfit, ?_, ?_, ?_⟩
  · intro f hf
    rw [hEq] at hf
    rcases forma_fila_preTodo (equiposDe n names) n.toNat dr bal bye f hf with
      h1 | ⟨h1, _⟩
    · exact Or.inl h1
    · exact Or.inr h1
  · intro hnd hbye f hf hD
    rw [hEq] at hf
    have hlen := length_equiposDe n names hn hfit
    have hndp := nodup_equiposPad (equiposDe n names) n.toNat bye hnd hbye
    cases dr with
    | false =>
        rw [preTodo_false] at hf
        exact descansa_real_preIda (equiposDe n names) n.toNat bal bye hlen hn0
          hndp f hf hD
    | true =>
        rw [preTodo_true] at hf
        rcases List.mem_append.mp hf with h1 | h1
        · exact descansa_real_preIda (equiposDe n names) n.toNat bal bye hlen hn0
            hndp f h1 hD
        · rw [vuelta] at h1
          obtain ⟨g, hg, rfl⟩ := List.mem_map.mp h1
          rcases forma_fila_preIda (equiposDe n names) n.toNat bal bye g hg with
            hg1 | ⟨hg1, hgv⟩
          · exfalso
            rw [espejo, if_neg (by rw [hg1]; decide)] at hD
            simp at hD
          · have := descansa_real_preIda (equiposDe n names) n.toNat bal bye hlen
              hn0 hndp g hg hg1
            rw [espejo, if_pos hg1]
            exact ⟨this.1, rfl⟩
  · intro hodd
    have hlen := length_equiposDe n names hn hfit
    obtain ⟨f, hf, hD⟩ := existe_descanso_preIda (equiposDe n names) n.toNat bal
      bye hlen hn0 hodd
    refine ⟨f, ?_, hD⟩
    rw [hEq]
    cases dr with
    | false =>
        rw [preTodo_false]
        exact hf
    | true =>
        rw [preTodo_true]
        exact List.mem_append.mpr (Or.inl hf)

/-- Witness for `claim_C10_nota_literal`: `n = 3` with a non-default
bye label. -/
theorem claim_C10_nota_literal_witness :
    ∃ out, generar_fixture 3 none false true "LIBRE" = Except.ok out ∧
      (∀ f ∈ out, f.nota = "" ∨ f.nota = "DESCANSA") ∧
      ((equiposDe 3 none).Nodup → "LIBRE" ∉ equiposDe 3 none →
        ∀ f ∈ out, f.nota = "DESCANSA" →
          f.locl ∈ equiposDe 3 none ∧ f.visita = "") ∧
      ((3 : Int).toNat % 2 = 1 → ∃ f ∈ out, f.nota = "DESCANSA") :=
  claim_C10_nota_literal 3 none false true "LIBRE" (by decide)
    (fun l h => nomatch h)

/-! ### The balance flag -/

theorem flipParidad_descansa (R : Nat) (f : Fila) (h : f.nota ≠ "") :
    flipParidad R f = f := by
  rw [flipParidad, if_neg (fun hc => h hc.2)]

theorem flipParidad_even (R : Nat) (f : Fila)
    (h1 : rondaLocal R f.ronda % 2 = 0) (h2 : f.nota = "") :
    flipParidad R f =
      { ronda := f.ronda, mesa := f.mesa, locl := f.visita, visita := f.locl,
        nota := "" } := by
  rw [flipParidad, if_pos ⟨h1, h2⟩]

theorem flipParidad_odd (R : Nat) (f : Fila)
    (h1 : rondaLocal R f.ronda % 2 = 1) : flipParidad R f = f := by
  rw [flipParidad, if_neg ?hneg]
  case hneg =>
    rintro ⟨hc1, _⟩
    omega

theorem filaDe_balance (bye : String) (R r mesa : Nat) (ab : String × String)
    (hr : r ≤ R) :
    filaDe bye true r mesa ab = flipParidad R (filaDe bye false r mesa ab) := by
  obtain ⟨a, b⟩ := ab
  have hloc : rondaLocal R r = r := by rw [rondaLocal, if_pos hr]
  by_cases hab : a = bye ∨ b = bye
  · rw [filaDe_bye_eq bye true r mesa a b hab, filaDe_bye_eq bye false r mesa a b hab,
      flipParidad_descansa R _ (by simp)]
  · by_cases hpar : r % 2 = 0
    · rw [filaDe_swap_eq bye true r mesa a b hab ⟨rfl, hpar⟩,
        filaDe_plain_eq bye false r mesa a b hab
          (fun hc => absurd hc.1 (by decide)),
        flipParidad_even R _
          (by show rondaLocal R r % 2 = 0; rw [hloc]; exact hpar) rfl]
    · rw [filaDe_plain_eq bye true r mesa a b hab (fun hc => hpar hc.2),
        filaDe_plain_eq bye false r mesa a b hab
          (fun hc => absurd hc.1 (by decide)),
        flipParidad_odd R _
          (by show rondaLocal R r % 2 = 1; rw [hloc]; omega)]

theorem conMesas_balance (bye : String) (R r : Nat) (hr : r ≤ R) :
    ∀ (l : List (String × String)) (mesa : Nat),
      conMesas bye true r mesa l =
        (conMesas bye false r mesa l).map (flipParidad R) := by
  intro l
  induction l with
  | nil => intro mesa; rfl
  | cons ab resto ih =>
      intro mesa
      simp only [conMesas, List.map_cons]
      rw [filaDe_balance bye R r mesa ab hr, ih (mesa + 1)]

theorem idaAux_balance (bye : String) (R mitad : Nat) :
    ∀ (k r : Nat) (w : List String), r + k ≤ R + 1 →
      idaAux bye true mitad r k w =
        (idaAux bye false mitad r k w).map (flipParidad R) := by
  intro k
  induction k with
  | zero => intro r w _; rfl
  | succ k ih =>
      intro r w hk
      simp only [idaAux, List.map_append]
      rw [filasRonda, filasRonda, conMesas_balance bye R r (by omega) _ 1,
        ih (r + 1) (rotar w) (by omega)]

theorem espejo_flip (R : Nat) (f : Fila) (hr1 : 1 ≤ f.ronda) (hr2 : f.ronda ≤ R)
    (hshape : f.nota = "" ∨ (f.nota = "DESCANSA" ∧ f.visita = "")) :
    espejo R (flipParidad R f) = flipParidad R (espejo R f) := by
  have hloc : rondaLocal R f.ronda = f.ronda := by rw [rondaLocal, if_pos hr2]
  have hloc2 : rondaLocal R (f.ronda + R) = f.ronda := by
    rw [rondaLocal, if_neg (by omega)]
    omega
  rcases hshape with hn | ⟨hn, hv⟩
  · have hesp : espejo R f =
        { ronda := f.ronda + R, mesa := f.mesa, locl := f.visita,
          visita := f.locl, nota := "" } := by
      rw [espejo, if_neg (by rw [hn]; decide)]
    by_cases hpar : f.ronda % 2 = 0
    · have h1 : flipParidad R f =
          { ronda := f.ronda, mesa := f.mesa, locl := f.visita,
            visita := f.locl, nota := "" } :=
        flipParidad_even R f (by rw [hloc]; exact hpar) hn
      have h2 : flipParidad R (espejo R f) =
          { ronda := f.ronda + R, mesa := f.mesa, locl := f.locl,
            visita := f.visita, nota := "" } := by
        rw [hesp, flipParidad_even R _
          (by show rondaLocal R (f.ronda + R) % 2 = 0; rw [hloc2]; exact hpar) rfl]
      rw [h1, h2, espejo, if_neg (by simp)]
    · have h1 : flipParidad R f = f :=
        flipParidad_odd R f (by rw [hloc]; omega)
      have h2 : flipParidad R (espejo R f) = espejo R f := by
        rw [hesp]
        exact flipParidad_odd R _
          (by show rondaLocal R (f.ronda + R) % 2 = 1; rw [hloc2]; omega)
      rw [h1, h2]
  · have h1 : flipParidad R f = f :=
      flipParidad_descansa R f (by rw [hn]; decide)
    have h2 : flipParidad R (espejo R f) = espejo R f := by
      apply flipParidad_descansa
      rw [espejo, if_pos hn]
      simp
    rw [h1, h2]

theorem preTodo_balance (equipos0 : List String) (n0 : Nat) (dr : Bool)
    (bye : String) :
    preTodo equipos0 n0 dr true bye =
      (preTodo equipos0 n0 dr false bye).map (flipParidad (rondasIda n0)) := by
  have hida : preIda equipos0 n0 true bye =
      (preIda equipos0 n0 false bye).map (flipParidad (rondasIda n0)) := by
    rw [preIda, preIda]
    exact idaAux_balance bye (rondasIda n0) (mitadDe n0) (rondasIda n0) 1 _
      (by omega)
  cases dr with
  | false =>
      rw [preTodo_false, preTodo_false]
      exact hida
  | true =>
      rw [preTodo_true, preTodo_true, List.map_append, hida, vuelta, vuelta,
        List.map_map, List.map_map]
      congr 1
      apply List.map_congr_left
      intro g hg
      have hb := ronda_mem_preIda equipos0 n0 false bye g hg
      have hs := forma_fila_preIda equipos0 n0 false bye g hg
      exact espejo_flip (rondasIda n0) g hb.1 hb.2 hs

theorem flipParidad_ronda (R : Nat) (f : Fila) :
    (flipParidad R f).ronda = f.ronda := by
  rw [flipParidad]
  split
  · rfl
  · rfl

theorem flipParidad_mesa (R : Nat) (f : Fila) :
    (flipParidad R f).mesa = f.mesa := by
  rw [flipParidad]
  split
  · rfl
  · rfl

theorem flipParidad_nota (R : Nat) (f : Fila) :
    (flipParidad R f).nota = f.nota := by
  rw [flipParidad]
  split
  next h => exact h.2.symm
  next h => rfl

/-- Counterexample to claim C8 as stated: at `n = 2` with `double_round`
the balanced and unbalanced outputs are identical; round 2 is an even
round holding a non-BYE match row, yet the balanced run's home is not
the unbalanced run's away — the even-round swap clause fails on the
second leg. -/
theorem claim_C8_counterexample :
    generar_fixture 2 none true true BYE_LABEL =
      Except.ok [{ ronda := 1, mesa := 1, locl := "E1", visita := "E2", nota := "" },
                 { ronda := 2, mesa := 1, locl := "E2", visita := "E1", nota := "" }] ∧
    generar_fixture 2 none true false BYE_LABEL =
      Except.ok [{ ronda := 1, mesa := 1, locl := "E1", visita := "E2", nota := "" },
                 { ronda := 2, mesa := 1, locl := "E2", visita := "E1", nota := "" }] ∧
    (2 % 2 = 0 ∧
      ({ ronda := 2, mesa := 1, locl := "E2", visita := "E1", nota := "" } : Fila).nota
        = "" ∧
      ({ ronda := 2, mesa := 1, locl := "E2", visita := "E1", nota := "" } : Fila).locl
        ≠ ({ ronda := 2, mesa := 1, locl := "E2", visita := "E1",
             nota := "" } : Fila).visita) := by
  refine ⟨?_, ?_, by decide⟩
  · rw [generar_fixture_ok 2 none true true BYE_LABEL (by decide)
      (fun l h => nomatch h), nucleo_eq_preTodo]
    rfl
  · rw [generar_fixture_ok 2 none true false BYE_LABEL (by decide)
      (fun l h => nomatch h), nucleo_eq_preTodo]
    rfl

/-- Claim C8 (amended): the balanced (`balance_home_away = true`) and
unbalanced runs agree positionally on round, table and note and on the
unordered match pairs; a balanced row is the unbalanced row with home and
away swapped exactly when its leg-local round number — the round itself
in the first leg, round − rondas in the second — is even and the row is
a match row; BYE rows and leg-locally odd rounds are identical.  (As
stated in terms of the raw output round number the claim fails for
`double_round`; see the counterexample.) -/
theorem claim_C8_balance (n : Int) (names : Option (List String)) (dr : Bool)
    (bye : String) (hn : 2 ≤ n)
    (hfit : ∀ l, names = some l → (l.length : Int) = n) :
    ∃ outT outF, generar_fixture n names dr true bye = Except.ok outT ∧
      generar_fixture n names dr false bye = Except.ok outF ∧
      outT = outF.map (flipParidad (rondasIda n.toNat)) ∧
      (∀ i (h1 : i < outT.length) (h2 : i < outF.length),
        (outT[i]).ronda = (outF[i]).ronda ∧ (outT[i]).mesa = (outF[i]).mesa ∧
        (outT[i]).nota = (outF[i]).nota ∧
        ((outF[i]).nota = "DESCANSA" → outT[i] = outF[i]) ∧
        (rondaLocal (rondasIda n.toNat) (outF[i]).ronda % 2 = 1 →
          outT[i] = outF[i]) ∧
        (rondaLocal (rondasIda n.toNat) (outF[i]).ronda % 2 = 0 →
          (outF[i]).nota = "" →
          (outT[i]).locl = (outF[i]).visita ∧
            (outT[i]).visita = (outF[i]).locl)) := by
  have hmap : nucleo (equiposDe n names) n.toNat dr true bye =
      (nucleo (equiposDe n names) n.toNat dr false bye).map
        (flipParidad (rondasIda n.toNat)) := by
    rw [nucleo_eq_preTodo, nucleo_eq_preTodo]
    exact preTodo_balance (equiposDe n names) n.toNat dr bye
  refine ⟨_, _, generar_fixture_ok n names dr true bye hn hfit,
    generar_fixture_ok n names dr false bye hn hfit, hmap, ?_⟩
  intro i h1 h2
  have hgi : (nucleo (equiposDe n names) n.toNat dr true bye)[i] =
      flipParidad (rondasIda n.toNat)
        ((nucleo (equiposDe n names) n.toNat dr false bye)[i]) := by
    simp only [hmap, List.getElem_map]
  rw [hgi, flipParidad_ronda, flipParidad_mesa, flipParidad_nota]
  refine ⟨rfl, rfl, rfl, ?_, ?_, ?_⟩
  · intro hD
    apply flipParidad_descansa
    rw [hD]
    decide
  · intro hodd
    exact flipParidad_odd _ _ hodd
  · intro hpar hnota
    rw [flipParidad_even _ _ hpar hnota]
    exact ⟨rfl, rfl⟩

/-- Witness for `claim_C8_balance`: `n = 5` with `double_round`. -/
theorem claim_C8_balance_witness :
    ∃ outT outF, generar_fixture 5 none true true BYE_LABEL = Except.ok outT ∧
      generar_fixture 5 none true false BYE_LABEL = Except.ok outF ∧
      outT = outF.map (flipParidad (rondasIda (5 : Int).toNat)) ∧
      (∀ i (h1 : i < outT.length) (h2 : i < outF.length),
        (outT[i]).ronda = (outF[i]).ronda ∧ (outT[i]).mesa = (outF[i]).mesa ∧
        (outT[i]).nota = (outF[i]).nota ∧
        ((outF[i]).nota = "DESCANSA" → outT[i] = outF[i]) ∧
        (rondaLocal (rondasIda (5 : Int).toNat) (outF[i]).ronda % 2 = 1 →
          outT[i] = outF[i]) ∧
        (rondaLocal (rondasIda (5 : Int).toNat) (outF[i]).ronda % 2 = 0 →
          (outF[i]).nota = "" →
          (outT[i]).locl = (outF[i]).visita ∧
            (outT[i]).visita = (outF[i]).locl)) :=
  claim_C8_balance 5 none true BYE_LABEL (by decide) (fun l h => nomatch h)
